import Mathlib

/-!
# Verification of the traffic-simulation core (TrafficSimulator/simulation.py)

A shallow embedding of the `Simulation` class.  Machine floats of the source
are modelled as rationals; Python sets of road indices are modelled as
duplicate-free lists (membership is the only observable used by the source);
Python dicts are modelled as association lists.

The collaborator classes `Road`, `Vehicle`, `TrafficSignal`, `VehicleGenerator`
and `Window` are not part of the embedded file; they are modelled from the
spec's collaborator contracts (spec sections 2, 3 and 6), as noted on each
definition.
-/

/-- Modelled from the spec: the `Vehicle` collaborator (vehicle.py is not under
src/).  Attributes used by the core: longitudinal position `x` along the
current road, fixed `path` of road indices, pointer `current_road_index` into
the path, world-coordinate `position` used for collision distances, and the
spawn time used for wait-time computation. -/
structure Vehicle where
  x : ℚ
  path : List ℕ
  current_road_index : ℕ
  position : ℚ × ℚ
  time_added : ℚ
deriving DecidableEq

/-- Modelled from the spec: `getTotalWaitingTime(currentTime)` of the missing
vehicle.py computes the vehicle's total wait time as
(current time − spawn time) (spec sections 4.2 and 6). -/
def Vehicle.get_total_waiting_time (v : Vehicle) (t : ℚ) : ℚ :=
  t - v.time_added

/-- Modelled from the spec: the `Road` collaborator (road.py is not under
src/): an ordered queue of vehicles (head = lead vehicle), a static geometric
`length` and a static immutable `index`. -/
structure Road where
  length : ℚ
  index : ℕ
  vehicles : List Vehicle
deriving DecidableEq

/-- Default road used by total list indexing; the source raises IndexError on
an out-of-range road index instead, and every theorem below either assumes or
establishes that all indices used are in range. -/
def droad : Road := ⟨0, 0, []⟩

/-- Default vehicle used by total head access; the source raises on an empty
queue instead, and the access is guarded by non-emptiness in all uses. -/
def dvehicle : Vehicle := ⟨0, [], 0, (0, 0), 0⟩

/-- Modelled from the spec: the `TrafficSignal` collaborator
(traffic_signal.py is not under src/).  Its `update()` "advances its own phase
state exactly once per call" (spec section 6), so the phase index counts the
number of `update()` calls it has received. -/
structure TrafficSignal where
  current_cycle_index : ℕ
deriving DecidableEq

/-- Modelled from the spec: `TrafficSignal.update()` advances the phase state
exactly once per call. -/
def TrafficSignal.update (ts : TrafficSignal) : TrafficSignal :=
  ⟨ts.current_cycle_index + 1⟩

/-- Modelled from the spec: the `Window` display collaborator (window.py is
not under src/): `update()` redraws and it exposes a `closed` boolean.  The
`closed` flag is driven by external user events only, so it is held fixed
across the redraw call. -/
structure Window where
  closed : Bool
deriving DecidableEq

/-- Modelled from the spec: `Window.update()` redraws; it does not change the
simulation-visible state. -/
def Window.update (w : Window) : Window := w

/-- Modelled from the spec: a `VehicleGenerator` is consulted once per tick
with the current time and the number of vehicles generated so far, and either
does nothing or injects one new vehicle onto one of its inbound roads and
returns that road's index (spec sections 2 and 6).  Its stochastic internal
state is abstracted as a pure function of its two arguments. -/
abbrev GenFun := ℚ → ℕ → Option (ℕ × Vehicle)

/-- Modelled from the spec: `Road.update(dt, t)` "advances all vehicles on the
road and mutates their positions in place" (spec section 6).  The motion model
(integration, slow/stop zones, car-following) lives in the missing road.py and
is abstracted as a function computing, from the time step, the current time,
the road (including all its vehicles and geometry) and one vehicle, that
vehicle's new longitudinal position and new world position. -/
abbrev Motion := ℚ → ℚ → Road → Vehicle → ℚ × (ℚ × ℚ)

/-- One road update `roads[i].update(dt, t)`: every vehicle's positional
fields are advanced; the queue's length and order are unchanged (spec
section 6). -/
def applyMotion (motion : Motion) (dt t : ℚ) (r : Road) : Road :=
  { r with vehicles := r.vehicles.map (fun v =>
      let p := motion dt t r v
      { v with x := p.1, position := p.2 }) }

/-- Replace the road at position `i` by `f` of it (in-place mutation of
`roads[i]` in the source). -/
def updAt (rs : List Road) (i : ℕ) (f : Road → Road) : List Road :=
  rs.set i (f (rs.getD i droad))

/-- Python `set.add`: no-op when the element is present. -/
def setAdd (l : List ℕ) (i : ℕ) : List ℕ :=
  if i ∈ l then l else l ++ [i]

/-- Python set difference `a - b`. -/
def setDiff (a b : List ℕ) : List ℕ :=
  a.filter (fun j => decide (j ∉ b))

/-- Python set union `a | b`. -/
def setUnion (a b : List ℕ) : List ℕ :=
  a ++ b.filter (fun j => decide (j ∉ a))

/-- The simulation state: the attributes set by `Simulation.__init__`.
`generators` holds the abstracted generator functions (see `GenFun`). -/
structure Simulation where
  t : ℚ
  dt : ℚ
  roads : List Road
  generators : List GenFun
  traffic_signals : List TrafficSignal
  collision_detected : Bool
  n_vehicles_generated : ℕ
  n_vehicles_on_map : ℤ
  _gui : Option Window
  _non_empty_roads : List ℕ
  _intersections : List (ℕ × List ℕ)
  _max_gen : Option ℕ
  _waiting_times : List ℚ

/-- `Simulation.__init__(max_gen)`. -/
def Simulation.init (max_gen : Option ℕ) : Simulation :=
  { t := 0
    dt := 1 / 60
    roads := []
    generators := []
    traffic_signals := []
    collision_detected := false
    n_vehicles_generated := 0
    n_vehicles_on_map := 0
    _gui := none
    _non_empty_roads := []
    _intersections := []
    _max_gen := max_gen
    _waiting_times := [] }

/-- Property `gui_closed`: `self._gui and self._gui.closed` under Python
truthiness (`None` is falsy). -/
def Simulation.gui_closed (s : Simulation) : Bool :=
  match s._gui with
  | none => false
  | some w => w.closed

/-- Property `non_empty_roads`. -/
def Simulation.non_empty_roads (s : Simulation) : List ℕ :=
  s._non_empty_roads

/-- Property `completed`: `self.collision_detected or reached_limit` where
`reached_limit = self._max_gen and self.n_vehicles_generated == self._max_gen
and not self.n_vehicles_on_map`.  Python truthiness: `self._max_gen` is falsy
both when it is `None` and when it is `0`.  It is a pure function of the
state (reading it modifies nothing). -/
def Simulation.completed (s : Simulation) : Bool :=
  s.collision_detected ||
    (match s._max_gen with
     | none => false
     | some m => decide (m ≠ 0) && decide (s.n_vehicles_generated = m)
         && decide (s.n_vehicles_on_map = 0))

/-- Property `intersections`: the static `_intersections` dict reduced to
non-empty roads: for each non-empty road that is a key, its intersecting set
restricted to non-empty roads, kept only when that restriction is non-empty. -/
def Simulation.intersections (s : Simulation) : List (ℕ × List ℕ) :=
  s._non_empty_roads.filterMap (fun road =>
    match s._intersections.lookup road with
    | none => none
    | some inter =>
      let ir := inter.filter (fun j => decide (j ∈ s._non_empty_roads))
      if ir.isEmpty then none else some (road, ir))

/-- Squared Euclidean distance between two world positions.  The source
compares `distance.euclidean(p, q) < 2`; since both sides are non-negative
this holds iff the squared distance is `< 4` (`sqDist_lt_four_iff` below), and
the squared form stays inside ℚ. -/
def sqDist (p q : ℚ × ℚ) : ℚ :=
  (p.1 - q.1) ^ 2 + (p.2 - q.2) ^ 2

/-- `detect_collisions`: for each entry of the reduced `intersections` view,
the source builds `intersecting_vehicles = chain.from_iterable(...)` — a
single-use Python iterator — and then runs
`for vehicle in vehicles: for intersecting in intersecting_vehicles: ...`.
The inner iterator is exhausted by the first outer iteration, so only the
first (lead) vehicle of the main road is ever compared against the
intersecting roads' vehicles; for every later vehicle of the main road the
inner loop body runs zero times.  The flag is set (and the scan stops) on the
first compared pair with distance < 2; it is never reset. -/
def collisionHit (s : Simulation) : Bool :=
  s.intersections.any (fun mi =>
    let vehicles := (s.roads.getD mi.1 droad).vehicles
    let intersecting_vehicles := mi.2.flatMap (fun i => (s.roads.getD i droad).vehicles)
    match vehicles with
    | [] => false
    | v :: _ => intersecting_vehicles.any (fun w => decide (sqDist v.position w.position < 4)))

/-- See `collisionHit` for the scan itself; the method sets the flag on a hit
and otherwise leaves the state untouched. -/
def Simulation.detect_collisions (s : Simulation) : Simulation :=
  if collisionHit s then { s with collision_detected := true } else s

/-- The collision scan as the spec states it (spec section 4.4 and claim C1):
the distance check runs over *every* vehicle of the main road paired with
every vehicle of each of its active intersecting roads.  Stated from the
spec's words, for comparison with `Simulation.detect_collisions`. -/
def detectCollisionsSpec (s : Simulation) : Bool :=
  s.intersections.any (fun mi =>
    (s.roads.getD mi.1 droad).vehicles.any (fun v =>
      (mi.2.flatMap (fun i => (s.roads.getD i droad).vehicles)).any
        (fun w => decide (sqDist v.position w.position < 4))))

/-- The completion predicate as the spec states it (claim C4): true iff a
collision was detected, or the generation limit is set and reached with zero
vehicles on the map.  Stated from the spec's words, for comparison with
`Simulation.completed`. -/
def completedSpec (s : Simulation) : Bool :=
  s.collision_detected ||
    (match s._max_gen with
     | none => false
     | some m => decide (s.n_vehicles_generated = m)
         && decide (s.n_vehicles_on_map = 0))

/-- `get_average_wait_time`: 0 on an empty log, else the mean. -/
def Simulation.get_average_wait_time (s : Simulation) : ℚ :=
  if s._waiting_times.isEmpty then 0
  else s._waiting_times.sum / s._waiting_times.length

/-- `_update_signals`: one `update()` call on every registered signal. -/
def Simulation.update_signals (s : Simulation) : Simulation :=
  { s with traffic_signals := s.traffic_signals.map TrafficSignal.update }

/-- Phase 1 of `update()`: `for i in self._non_empty_roads:
self.roads[i].update(self.dt, self.t)`. -/
def motionPhase (motion : Motion) (s : Simulation) : Simulation :=
  let roads := s._non_empty_roads.foldl
    (fun rs i => updAt rs i (applyMotion motion s.dt s.t)) s.roads
  { s with roads := roads }

/-- The break guard of the generation loop:
`if self._max_gen and self.n_vehicles_generated == self._max_gen: break`.
Python truthiness: `_max_gen` is falsy when `None` or `0`. -/
def genBreak (max_gen : Option ℕ) (ngen : ℕ) : Bool :=
  match max_gen with
  | none => false
  | some m => decide (m ≠ 0) && decide (ngen = m)

/-- Accumulator of the generation loop: the roads, the live non-empty set and
the two counters. -/
structure GenAcc where
  roads : List Road
  ne : List ℕ
  ngen : ℕ
  nmap : ℤ

/-- The generation loop of `update()`: each generator in registration order is
consulted unless the break guard fires; on a spawn the returned road receives
the new vehicle (spec section 6: the road "just received a new vehicle"), both
counters are incremented and the road is marked non-empty. -/
def runGens (t : ℚ) (max_gen : Option ℕ) : List GenFun → GenAcc → GenAcc
  | [], acc => acc
  | g :: gs, acc =>
    if genBreak max_gen acc.ngen then acc
    else
      match g t acc.ngen with
      | none => runGens t max_gen gs acc
      | some (ri, v) =>
          runGens t max_gen gs
            { roads := updAt acc.roads ri (fun r => { r with vehicles := r.vehicles ++ [v] })
              ne := setAdd acc.ne ri
              ngen := acc.ngen + 1
              nmap := acc.nmap + 1 }

/-- Phase 2 of `update()`: the vehicle-generation loop. -/
def genPhase (s : Simulation) : Simulation :=
  let acc := runGens s.t s._max_gen s.generators
    ⟨s.roads, s._non_empty_roads, s.n_vehicles_generated, s.n_vehicles_on_map⟩
  { s with roads := acc.roads
           _non_empty_roads := acc.ne
           n_vehicles_generated := acc.ngen
           n_vehicles_on_map := acc.nmap }

/-- Accumulator of the out-of-bounds loop of `update()`: the roads, the sets
`new_non_empty_roads` and `empty_roads` being built, the on-map counter and
the wait-time log. -/
structure BAcc where
  roads : List Road
  new_ne : List ℕ
  empty : List ℕ
  nmap : ℤ
  waits : List ℚ
deriving DecidableEq

/-- One iteration of the out-of-bounds loop of `update()` for road index `i`:
inspect the lead vehicle; if it reached the road length, either hand it off to
the next road of its path (advance the path pointer, append a copy with
position 0 to the next road, mark that road newly non-empty, pop the head) or
retire it (pop the head, decrement the on-map counter, log its total waiting
time); a road whose queue this empties is marked for removal via its `index`
attribute. -/
def boundaryStep (t : ℚ) (acc : BAcc) (i : ℕ) : BAcc :=
  let road := acc.roads.getD i droad
  if road.vehicles.isEmpty then acc
  else
    let lead := road.vehicles.headD dvehicle
    if lead.x ≥ road.length then
      if lead.current_road_index + 1 < lead.path.length then
        let new_vehicle : Vehicle :=
          { lead with current_road_index := lead.current_road_index + 1, x := 0 }
        let next_road_index := lead.path.getD (lead.current_road_index + 1) 0
        let roads1 := updAt acc.roads next_road_index
          (fun r => { r with vehicles := r.vehicles ++ [new_vehicle] })
        let roads2 := updAt roads1 i (fun r => { r with vehicles := r.vehicles.tail })
        { roads := roads2
          new_ne := setAdd acc.new_ne next_road_index
          empty := if (roads2.getD i droad).vehicles.isEmpty
            then setAdd acc.empty (roads2.getD i droad).index else acc.empty
          nmap := acc.nmap
          waits := acc.waits }
      else
        let roads2 := updAt acc.roads i (fun r => { r with vehicles := r.vehicles.tail })
        { roads := roads2
          new_ne := acc.new_ne
          empty := if (roads2.getD i droad).vehicles.isEmpty
            then setAdd acc.empty (roads2.getD i droad).index else acc.empty
          nmap := acc.nmap - 1
          waits := acc.waits ++ [lead.get_total_waiting_time t] }
    else acc

/-- Phase 3 of `update()`: run the out-of-bounds loop over the current
non-empty set, then `self._non_empty_roads -= empty_roads` and
`self._non_empty_roads |= new_non_empty_roads`. -/
def boundaryPhase (s : Simulation) : Simulation :=
  let acc := s._non_empty_roads.foldl (boundaryStep s.t)
    ⟨s.roads, [], [], s.n_vehicles_on_map, s._waiting_times⟩
  { s with roads := acc.roads
           n_vehicles_on_map := acc.nmap
           _waiting_times := acc.waits
           _non_empty_roads := setUnion (setDiff s._non_empty_roads acc.empty) acc.new_ne }

/-- Phase 5 of `update()`: `self.t += self.dt`. -/
def clockPhase (s : Simulation) : Simulation :=
  { s with t := s.t + s.dt }

/-- Phase 6 of `update()`: `if self._gui: self._gui.update()`. -/
def guiPhase (s : Simulation) : Simulation :=
  match s._gui with
  | none => s
  | some w => { s with _gui := some w.update }

/-- `Simulation.update()`: road motion on the non-empty set, vehicle
generation up to the cap, the out-of-bounds hand-off/removal loop with the
active-set fix-up, collision detection, clock advance, display update —
in the source's order. -/
def Simulation.update (motion : Motion) (s : Simulation) : Simulation :=
  guiPhase (clockPhase (Simulation.detect_collisions
    (boundaryPhase (genPhase (motionPhase motion s)))))

/-- `Simulation._loop(n)`: n updates, returning early as soon as `completed`
or the GUI reports closed (checked after each update). -/
def Simulation.loop (motion : Motion) : ℕ → Simulation → Simulation
  | 0, s => s
  | n + 1, s =>
    if (Simulation.update motion s).completed || (Simulation.update motion s).gui_closed
    then Simulation.update motion s
    else Simulation.loop motion n (Simulation.update motion s)

/-- `Simulation.run(action, n)`: on a truthy action, toggle the signals, run
the hard-coded 200-update loop, return early if completed or closed, else
toggle the signals again; finally run the n-update loop.  The source binds the
intermediate state once; since the model's functions are pure, repeating the
expression denotes the same state. -/
def Simulation.run (motion : Motion) (action : Bool) (n : ℕ) (s : Simulation) : Simulation :=
  if action then
    if (Simulation.loop motion 200 (Simulation.update_signals s)).completed ||
       (Simulation.loop motion 200 (Simulation.update_signals s)).gui_closed
    then Simulation.loop motion 200 (Simulation.update_signals s)
    else Simulation.loop motion n
      (Simulation.update_signals (Simulation.loop motion 200 (Simulation.update_signals s)))
  else Simulation.loop motion n s

/-- The operations a caller can invoke on a running simulation (claim C6). -/
inductive SimOp where
  | upd : SimOp
  | runOp : Bool → ℕ → SimOp
  | detect : SimOp

/-- Apply one caller-visible operation. -/
def applyOp (motion : Motion) : SimOp → Simulation → Simulation
  | SimOp.upd, s => Simulation.update motion s
  | SimOp.runOp a n, s => Simulation.run motion a n s
  | SimOp.detect, s => Simulation.detect_collisions s

/-- Apply a sequence of caller-visible operations, oldest first. -/
def applyOps (motion : Motion) : List SimOp → Simulation → Simulation
  | [], s => s
  | op :: ops, s => applyOps motion ops (applyOp motion op s)

/-- The active-set invariant of claim C2 (spec section 4.1): the set
`_non_empty_roads` holds exactly the in-range road indices whose vehicle
queue is non-empty. -/
def activeInv (s : Simulation) : Prop :=
  (∀ j ∈ s._non_empty_roads, j < s.roads.length ∧ (s.roads.getD j droad).vehicles ≠ []) ∧
  (∀ j, j < s.roads.length → (s.roads.getD j droad).vehicles ≠ [] → j ∈ s._non_empty_roads)

/-- Well-formedness of a reachable network: `add_road` assigns each road the
index equal to its list position. -/
def idxOk (s : Simulation) : Prop :=
  ∀ j, j < s.roads.length → (s.roads.getD j droad).index = j

/-- Well-formedness of a reachable network: every vehicle's path mentions only
existing road indices (paths are chosen by generators over the registered
roads). -/
def pathOk (s : Simulation) : Prop :=
  ∀ r ∈ s.roads, ∀ v ∈ r.vehicles, ∀ p ∈ v.path, p < s.roads.length

/-- Well-formedness of the registered generators: a generator only spawns
onto an existing inbound road, and spawned vehicles have paths over existing
roads (spec section 6). -/
def genOk (s : Simulation) : Prop :=
  ∀ g ∈ s.generators, ∀ (t : ℚ) (n : ℕ) (ri : ℕ) (v : Vehicle),
    g t n = some (ri, v) → ri < s.roads.length ∧ ∀ p ∈ v.path, p < s.roads.length

/-- Invariant carried through the generation loop. -/
def GInv (len : ℕ) (acc : GenAcc) : Prop :=
  acc.roads.length = len ∧
  (∀ j, j < len → (acc.roads.getD j droad).index = j) ∧
  (∀ j, ∀ v ∈ (acc.roads.getD j droad).vehicles, ∀ p ∈ v.path, p < len) ∧
  acc.ne.Nodup ∧
  (∀ j ∈ acc.ne, j < len ∧ (acc.roads.getD j droad).vehicles ≠ []) ∧
  (∀ j, j < len → (acc.roads.getD j droad).vehicles ≠ [] → j ∈ acc.ne)

/-- Invariant carried through the out-of-bounds loop: `P` is the list of
already-processed road indices, `R` the indices still to process. -/
def BInv (len : ℕ) (P R : List ℕ) (acc : BAcc) : Prop :=
  acc.roads.length = len ∧
  (∀ j, j < len → (acc.roads.getD j droad).index = j) ∧
  (∀ j, ∀ v ∈ (acc.roads.getD j droad).vehicles, ∀ p ∈ v.path, p < len) ∧
  (∀ j ∈ acc.new_ne, j < len) ∧
  (∀ j ∈ acc.empty, j ∈ P) ∧
  (∀ j ∈ R, (acc.roads.getD j droad).vehicles ≠ []) ∧
  (∀ j ∈ R, j ∈ acc.new_ne → (acc.roads.getD j droad).vehicles.tail ≠ []) ∧
  (∀ j, (acc.roads.getD j droad).vehicles ≠ [] ↔
    (j ∈ R ∨ j ∈ acc.new_ne ∨ (j ∈ P ∧ j ∉ acc.empty)))

/-- A motion function for concrete runs: every vehicle keeps its positions
(the `Motion` abstraction applied to the constant motion model). -/
def motion0 : Motion := fun _ _ _ v => (v.x, v.position)

/-- Concrete vehicles for the collision-scan evaluation: road 0 holds `vA1`
(world position (0,0)) then `vA2` ((50,50)); road 1 holds `vB1` ((100,100))
then `vB2` ((50,50)).  The only close pair is (`vA2`, `vB2`), at distance 0. -/
def vA1 : Vehicle := ⟨0, [0], 0, (0, 0), 0⟩

/-- See `vA1`. -/
def vA2 : Vehicle := ⟨0, [0], 0, (50, 50), 0⟩

/-- See `vA1`. -/
def vB1 : Vehicle := ⟨0, [1], 0, (100, 100), 0⟩

/-- See `vA1`. -/
def vB2 : Vehicle := ⟨0, [1], 0, (50, 50), 0⟩

/-- Concrete state for claim C1: two mutually intersecting non-empty roads,
two vehicles each; the only pair within the collision radius is the pair of
second vehicles. -/
def c1sim : Simulation :=
  { t := 0, dt := 1/60,
    roads := [⟨100, 0, [vA1, vA2]⟩, ⟨100, 1, [vB1, vB2]⟩],
    generators := [], traffic_signals := [], collision_detected := false,
    n_vehicles_generated := 4, n_vehicles_on_map := 4, _gui := none,
    _non_empty_roads := [0, 1], _intersections := [(0, [1]), (1, [0])],
    _max_gen := none, _waiting_times := [] }

/-- A generator that always spawns a fresh vehicle onto road 0. -/
def gen0 : GenFun := fun _ _ => some (0, vA1)

/-- Concrete state for claim C5's counterexample: the generation limit is set
to 0 (flasy in Python), one always-spawning generator. -/
def c5sim : Simulation :=
  { t := 0, dt := 1/60,
    roads := [⟨100, 0, []⟩],
    generators := [gen0], traffic_signals := [], collision_detected := false,
    n_vehicles_generated := 0, n_vehicles_on_map := 0, _gui := none,
    _non_empty_roads := [], _intersections := [],
    _max_gen := some 0, _waiting_times := [] }

/-- Concrete state for claim C5's witness: limit 1 already reached, an
always-spawning generator still registered. -/
def c5wsim : Simulation :=
  { c5sim with _max_gen := some 1, n_vehicles_generated := 1 }

/-- Concrete state for claim C3's counterexample: an idle simulation (no
roads, no generators, no GUI, no cap) with one traffic signal. -/
def c3sim : Simulation :=
  { Simulation.init none with traffic_signals := [⟨0⟩] }

/-- Concrete state for claim C6's witness: a collision has been detected. -/
def c6sim : Simulation :=
  { Simulation.init none with collision_detected := true }

/-- Lead vehicle for claim C7's witness: at the end of road 0 (x = 1 =
length) with one more path segment (next road 1). -/
def v7 : Vehicle := ⟨1, [0, 1], 0, (0, 0), 0⟩

/-- Trailing vehicle for claim C7's witness. -/
def v7b : Vehicle := ⟨0, [0], 0, (9, 9), 0⟩

/-- Accumulator for claim C7's witness. -/
def acc7 : BAcc := ⟨[⟨1, 0, [v7, v7b]⟩, ⟨5, 1, []⟩], [], [], 5, []⟩

/-- Lead vehicle for claim C8's witness: past the end of road 0 with its path
exhausted. -/
def v8 : Vehicle := ⟨2, [0], 0, (0, 0), 0⟩

/-- Accumulator for claim C8's witness. -/
def acc8 : BAcc := ⟨[⟨1, 0, [v8]⟩], [], [], 5, []⟩

/-- Concrete state for claim C9's witness: a non-empty wait-time log. -/
def c9sim : Simulation :=
  { Simulation.init none with _waiting_times := [3, 5] }

/-- Concrete state for claim C2's witness: one vehicle at the end of road 0
about to be handed off to road 1. -/
def c2wsim : Simulation :=
  { t := 0, dt := 1/60,
    roads := [⟨1, 0, [v7]⟩, ⟨5, 1, []⟩],
    generators := [], traffic_signals := [], collision_detected := false,
    n_vehicles_generated := 1, n_vehicles_on_map := 1, _gui := none,
    _non_empty_roads := [0], _intersections := [],
    _max_gen := none, _waiting_times := [] }

/-! ## Basic lemmas about the set and list helpers -/

theorem mem_setAdd {l : List ℕ} {i j : ℕ} : j ∈ setAdd l i ↔ j ∈ l ∨ j = i := by
  unfold setAdd
  split
  · rename_i hmem
    constructor
    · exact Or.inl
    · rintro (h | rfl)
      · exact h
      · exact hmem
  · simp [List.mem_append]

theorem nodup_setAdd {l : List ℕ} {i : ℕ} (h : l.Nodup) : (setAdd l i).Nodup := by
  unfold setAdd
  split
  · exact h
  · rename_i hmem
    simp [List.nodup_append, h, hmem]

theorem mem_setDiff {a b : List ℕ} {j : ℕ} : j ∈ setDiff a b ↔ j ∈ a ∧ j ∉ b := by
  unfold setDiff
  simp [List.mem_filter]

theorem mem_setUnion {a b : List ℕ} {j : ℕ} : j ∈ setUnion a b ↔ j ∈ a ∨ j ∈ b := by
  unfold setUnion
  simp only [List.mem_append, List.mem_filter, decide_eq_true_eq]
  constructor
  · rintro (h | ⟨h, _⟩)
    · exact Or.inl h
    · exact Or.inr h
  · rintro (h | h)
    · exact Or.inl h
    · by_cases ha : j ∈ a
      · exact Or.inl ha
      · exact Or.inr ⟨h, ha⟩

theorem getD_eq_droad {rs : List Road} {j : ℕ} (h : rs.length ≤ j) :
    rs.getD j droad = droad :=
  List.getD_eq_default rs droad h

theorem length_updAt (rs : List Road) (i : ℕ) (f : Road → Road) :
    (updAt rs i f).length = rs.length := by
  unfold updAt
  exact List.length_set rs i _

theorem getD_updAt (rs : List Road) (i j : ℕ) (f : Road → Road) :
    (updAt rs i f).getD j droad =
      if j = i ∧ i < rs.length then f (rs.getD i droad) else rs.getD j droad := by
  unfold updAt
  by_cases hji : j = i
  · subst hji
    by_cases hlt : j < rs.length
    · simp [List.getD, List.getElem?_set_self', hlt]
    · rw [List.set_eq_of_length_le (Nat.le_of_not_lt hlt)]
      simp [hlt]
  · simp [List.getD, List.getElem?_set_ne (Ne.symm hji), hji]

theorem foldl_updAt_length (f : Road → Road) (L : List ℕ) (rs : List Road) :
    (L.foldl (fun a i => updAt a i f) rs).length = rs.length := by
  induction L generalizing rs with
  | nil => rfl
  | cons i L ih => rw [List.foldl_cons, ih, length_updAt]

theorem foldl_updAt_getD (f : Road → Road) (L : List ℕ) (rs : List Road) (j : ℕ)
    (hnd : L.Nodup) :
    (L.foldl (fun a i => updAt a i f) rs).getD j droad =
      if j ∈ L ∧ j < rs.length then f (rs.getD j droad) else rs.getD j droad := by
  induction L generalizing rs with
  | nil => simp
  | cons i L ih =>
    rcases List.nodup_cons.mp hnd with ⟨hiL, hL⟩
    rw [List.foldl_cons, ih _ hL, length_updAt, getD_updAt]
    by_cases hji : j = i
    · subst hji
      have hjL : j ∉ L := hiL
      by_cases hlt : j < rs.length
      · simp [hjL, hlt]
      · simp [hjL, hlt]
    · simp [hji, List.mem_cons]

/-! ## Structural facts about the phases of `update()` -/

theorem guiPhase_eq (s : Simulation) : guiPhase s = s := by
  unfold guiPhase
  cases hg : s._gui with
  | none => rfl
  | some w =>
    show { s with _gui := some w.update } = s
    rw [show w.update = w from rfl, ← hg]

theorem detect_collisions_cases (s : Simulation) :
    Simulation.detect_collisions s = s ∨
      Simulation.detect_collisions s = { s with collision_detected := true } := by
  unfold Simulation.detect_collisions
  split
  · right; rfl
  · left; rfl

theorem detect_collisions_roads (s : Simulation) :
    (Simulation.detect_collisions s).roads = s.roads := by
  rcases detect_collisions_cases s with h | h <;> rw [h]

theorem detect_collisions_ne (s : Simulation) :
    (Simulation.detect_collisions s)._non_empty_roads = s._non_empty_roads := by
  rcases detect_collisions_cases s with h | h <;> rw [h]

theorem detect_collisions_ngen (s : Simulation) :
    (Simulation.detect_collisions s).n_vehicles_generated = s.n_vehicles_generated := by
  rcases detect_collisions_cases s with h | h <;> rw [h]

theorem detect_collisions_max_gen (s : Simulation) :
    (Simulation.detect_collisions s)._max_gen = s._max_gen := by
  rcases detect_collisions_cases s with h | h <;> rw [h]

theorem detect_collisions_signals (s : Simulation) :
    (Simulation.detect_collisions s).traffic_signals = s.traffic_signals := by
  rcases detect_collisions_cases s with h | h <;> rw [h]

theorem detect_collisions_gui (s : Simulation) :
    (Simulation.detect_collisions s)._gui = s._gui := by
  rcases detect_collisions_cases s with h | h <;> rw [h]

theorem detect_collisions_flag_true {s : Simulation} (h : s.collision_detected = true) :
    (Simulation.detect_collisions s).collision_detected = true := by
  rcases detect_collisions_cases s with hc | hc <;> rw [hc]
  exact h

theorem update_ngen (motion : Motion) (s : Simulation) :
    (Simulation.update motion s).n_vehicles_generated =
      (genPhase (motionPhase motion s)).n_vehicles_generated := by
  unfold Simulation.update
  rw [guiPhase_eq]
  show (Simulation.detect_collisions (boundaryPhase (genPhase (motionPhase motion s)))).n_vehicles_generated = _
  rw [detect_collisions_ngen]
  rfl

theorem update_max_gen (motion : Motion) (s : Simulation) :
    (Simulation.update motion s)._max_gen = s._max_gen := by
  unfold Simulation.update
  rw [guiPhase_eq]
  show (Simulation.detect_collisions (boundaryPhase (genPhase (motionPhase motion s))))._max_gen = _
  rw [detect_collisions_max_gen]
  rfl

theorem update_signals_eq (motion : Motion) (s : Simulation) :
    (Simulation.update motion s).traffic_signals = s.traffic_signals := by
  unfold Simulation.update
  rw [guiPhase_eq]
  show (Simulation.detect_collisions (boundaryPhase (genPhase (motionPhase motion s)))).traffic_signals = _
  rw [detect_collisions_signals]
  rfl

theorem update_gui (motion : Motion) (s : Simulation) :
    (Simulation.update motion s)._gui = s._gui := by
  unfold Simulation.update
  rw [guiPhase_eq]
  show (Simulation.detect_collisions (boundaryPhase (genPhase (motionPhase motion s))))._gui = _
  rw [detect_collisions_gui]
  rfl

theorem update_flag_true (motion : Motion) {s : Simulation}
    (h : s.collision_detected = true) :
    (Simulation.update motion s).collision_detected = true := by
  unfold Simulation.update
  rw [guiPhase_eq]
  show (Simulation.detect_collisions (boundaryPhase (genPhase (motionPhase motion s)))).collision_detected = true
  exact detect_collisions_flag_true h

theorem completed_of_flag {s : Simulation} (h : s.collision_detected = true) :
    s.completed = true := by
  unfold Simulation.completed
  rw [h, Bool.true_or]

/-! ## The motion phase preserves the active-set well-formedness -/

theorem applyMotion_index (motion : Motion) (dt t : ℚ) (r : Road) :
    (applyMotion motion dt t r).index = r.index := rfl

theorem applyMotion_vehicles_eq_nil (motion : Motion) (dt t : ℚ) (r : Road) :
    ((applyMotion motion dt t r).vehicles = [] ↔ r.vehicles = []) := by
  unfold applyMotion
  simp

theorem applyMotion_path (motion : Motion) (dt t : ℚ) (r : Road) {v : Vehicle}
    (hv : v ∈ (applyMotion motion dt t r).vehicles) :
    ∃ w ∈ r.vehicles, v.path = w.path := by
  unfold applyMotion at hv
  simp only [List.mem_map] at hv
  obtain ⟨w, hw, rfl⟩ := hv
  exact ⟨w, hw, rfl⟩

theorem motionPhase_roads_length (motion : Motion) (s : Simulation) :
    (motionPhase motion s).roads.length = s.roads.length :=
  foldl_updAt_length _ _ _

theorem motionPhase_roads_getD (motion : Motion) (s : Simulation) (j : ℕ)
    (hnd : s._non_empty_roads.Nodup) :
    (motionPhase motion s).roads.getD j droad =
      if j ∈ s._non_empty_roads ∧ j < s.roads.length
      then applyMotion motion s.dt s.t (s.roads.getD j droad)
      else s.roads.getD j droad :=
  foldl_updAt_getD _ _ _ _ hnd

theorem getD_vehicles_ne_imp_lt {rs : List Road} {j : ℕ}
    (h : (rs.getD j droad).vehicles ≠ []) : j < rs.length := by
  by_contra hlt
  rw [getD_eq_droad (Nat.le_of_not_lt hlt)] at h
  exact h rfl

/-- Path validity in indexed form, used throughout the tick proofs. -/
theorem pathOk_getD {s : Simulation} (h : pathOk s) (j : ℕ) :
    ∀ v ∈ (s.roads.getD j droad).vehicles, ∀ p ∈ v.path, p < s.roads.length := by
  intro v hv p hp
  by_cases hj : j < s.roads.length
  · have hr : s.roads.getD j droad ∈ s.roads := by
      rw [List.getD_eq_getElem s.roads droad hj]
      exact List.getElem_mem hj
    exact h _ hr v hv p hp
  · rw [getD_eq_droad (Nat.le_of_not_lt hj)] at hv
    cases hv

theorem motionPhase_WF (motion : Motion) (s : Simulation)
    (h1 : activeInv s) (hnd : s._non_empty_roads.Nodup)
    (h3 : idxOk s) (h4 : pathOk s) :
    activeInv (motionPhase motion s) ∧ idxOk (motionPhase motion s) ∧
      (∀ j, ∀ v ∈ ((motionPhase motion s).roads.getD j droad).vehicles,
        ∀ p ∈ v.path, p < (motionPhase motion s).roads.length) := by
  have hlen := motionPhase_roads_length motion s
  have hne : (motionPhase motion s)._non_empty_roads = s._non_empty_roads := rfl
  have hgetD := fun j => motionPhase_roads_getD motion s j hnd
  have hnil : ∀ j, (((motionPhase motion s).roads.getD j droad).vehicles = [] ↔
      (s.roads.getD j droad).vehicles = []) := by
    intro j
    rw [hgetD j]
    split
    · exact applyMotion_vehicles_eq_nil motion s.dt s.t _
    · exact Iff.rfl
  refine ⟨⟨?_, ?_⟩, ?_, ?_⟩
  · intro j hj
    rw [hne] at hj
    rcases h1.1 j hj with ⟨hjlt, hjne⟩
    refine ⟨by rw [hlen]; exact hjlt, ?_⟩
    intro hcon
    exact hjne ((hnil j).mp hcon)
  · intro j hjlt hjne
    rw [hne]
    rw [hlen] at hjlt
    refine h1.2 j hjlt ?_
    intro hcon
    exact hjne ((hnil j).mpr hcon)
  · intro j hjlt
    rw [hlen] at hjlt
    rw [hgetD j]
    split
    · rw [applyMotion_index]
      exact h3 j hjlt
    · exact h3 j hjlt
  · intro j v hv p hp
    rw [hlen]
    rw [hgetD j] at hv
    have : ∃ w ∈ (s.roads.getD j droad).vehicles, v.path = w.path := by
      revert hv
      split
      · intro hv
        exact applyMotion_path motion s.dt s.t _ hv
      · intro hv
        exact ⟨v, hv, rfl⟩
    obtain ⟨w, hw, hpath⟩ := this
    rw [hpath] at hp
    exact pathOk_getD h4 j w hw p hp

/-! ## The generation phase preserves the active-set well-formedness -/

theorem runGens_inv (t : ℚ) (mg : Option ℕ) (len : ℕ) (gs : List GenFun) (acc : GenAcc)
    (hg : ∀ g ∈ gs, ∀ (tt : ℚ) (n ri : ℕ) (v : Vehicle), g tt n = some (ri, v) →
      ri < len ∧ ∀ p ∈ v.path, p < len)
    (h : GInv len acc) : GInv len (runGens t mg gs acc) := by
  induction gs generalizing acc with
  | nil => exact h
  | cons g gs ih =>
    rw [runGens]
    split
    · exact h
    · cases hge : g t acc.ngen with
      | none =>
        exact ih _ (fun g2 hm => hg g2 (List.mem_cons_of_mem _ hm)) h
      | some pair =>
        obtain ⟨ri, v⟩ := pair
        rcases hg g (List.mem_cons_self _ _) t acc.ngen ri v hge with ⟨hri, hv⟩
        apply ih _ (fun g2 hm => hg g2 (List.mem_cons_of_mem _ hm))
        obtain ⟨hl, hidx, hpath, hnd, hmem, hcov⟩ := h
        have hgd : ∀ j, ((updAt acc.roads ri
            (fun r => { r with vehicles := r.vehicles ++ [v] })).getD j droad) =
            if j = ri ∧ ri < acc.roads.length
            then { acc.roads.getD ri droad with
                     vehicles := (acc.roads.getD ri droad).vehicles ++ [v] }
            else acc.roads.getD j droad := by
          intro j
          exact getD_updAt acc.roads ri j _
        have hrilen : ri < acc.roads.length := by rw [hl]; exact hri
        refine ⟨?_, ?_, ?_, ?_, ?_, ?_⟩
        · rw [length_updAt]; exact hl
        · intro j hj
          rw [hgd j]
          split
          · rename_i hcase
            rw [← hcase.1]
            exact hidx j hj
          · exact hidx j hj
        · intro j w hw p hp
          rw [hgd j] at hw
          revert hw
          split
          · intro hw
            simp only [List.mem_append, List.mem_singleton] at hw
            rcases hw with hw | rfl
            · exact hpath ri w hw p hp
            · exact hv p hp
          · intro hw
            exact hpath j w hw p hp
        · exact nodup_setAdd hnd
        · intro j hj
          rcases mem_setAdd.mp hj with hj2 | rfl
          · rcases hmem j hj2 with ⟨hjlt, hjne⟩
            refine ⟨hjlt, ?_⟩
            rw [hgd j]
            split
            · simp
            · exact hjne
          · refine ⟨hri, ?_⟩
            rw [hgd j]
            simp [hrilen]
        · intro j hjlt hjne
          rw [hgd j] at hjne
          by_cases hcase : j = ri
          · exact mem_setAdd.mpr (Or.inr hcase)
          · refine mem_setAdd.mpr (Or.inl (hcov j hjlt ?_))
            simpa [hcase] using hjne

theorem genPhase_WF (s : Simulation)
    (h1 : activeInv s) (hnd : s._non_empty_roads.Nodup)
    (h3 : idxOk s)
    (h4 : ∀ j, ∀ v ∈ (s.roads.getD j droad).vehicles, ∀ p ∈ v.path, p < s.roads.length)
    (h5 : genOk s) :
    activeInv (genPhase s) ∧ (genPhase s)._non_empty_roads.Nodup ∧
      idxOk (genPhase s) ∧
      (∀ j, ∀ v ∈ ((genPhase s).roads.getD j droad).vehicles,
        ∀ p ∈ v.path, p < (genPhase s).roads.length) := by
  have hstart : GInv s.roads.length
      ⟨s.roads, s._non_empty_roads, s.n_vehicles_generated, s.n_vehicles_on_map⟩ :=
    ⟨rfl, h3, h4, hnd, h1.1, h1.2⟩
  have hres := runGens_inv s.t s._max_gen s.roads.length s.generators _ h5 hstart
  obtain ⟨hl, hidx, hpath, hnd2, hmem, hcov⟩ := hres
  have hlen2 : (genPhase s).roads.length = s.roads.length := hl
  refine ⟨⟨?_, ?_⟩, ?_, ?_, ?_⟩
  · intro j hj
    rcases hmem j hj with ⟨hjlt, hjne⟩
    refine ⟨?_, hjne⟩
    rw [hlen2]
    exact hjlt
  · intro j hjlt hjne
    rw [hlen2] at hjlt
    exact hcov j hjlt hjne
  · exact hnd2
  · intro j hjlt
    rw [hlen2] at hjlt
    exact hidx j hjlt
  · intro j v hv p hp
    rw [hlen2]
    exact hpath j v hv p hp

/-! ## Branch reductions for the out-of-bounds loop body -/

theorem boundaryStep_stay (t : ℚ) (acc : BAcc) (i : ℕ) (lead : Vehicle) (rest : List Vehicle)
    (hq : (acc.roads.getD i droad).vehicles = lead :: rest)
    (hx : ¬ lead.x ≥ (acc.roads.getD i droad).length) :
    boundaryStep t acc i = acc := by
  simp only [boundaryStep, hq, List.isEmpty_cons, List.headD_cons, Bool.false_eq_true,
    if_false]
  rw [if_neg hx]

theorem boundaryStep_handoff (t : ℚ) (acc : BAcc) (i : ℕ) (lead : Vehicle) (rest : List Vehicle)
    (hq : (acc.roads.getD i droad).vehicles = lead :: rest)
    (hx : lead.x ≥ (acc.roads.getD i droad).length)
    (hnext : lead.current_road_index + 1 < lead.path.length) :
    boundaryStep t acc i =
      { roads := updAt (updAt acc.roads (lead.path.getD (lead.current_road_index + 1) 0)
          (fun r => { r with vehicles := r.vehicles ++
            [{ lead with current_road_index := lead.current_road_index + 1, x := 0 }] }))
          i (fun r => { r with vehicles := r.vehicles.tail }),
        new_ne := setAdd acc.new_ne (lead.path.getD (lead.current_road_index + 1) 0),
        empty :=
          (if ((updAt (updAt acc.roads (lead.path.getD (lead.current_road_index + 1) 0)
              (fun r => { r with vehicles := r.vehicles ++
                [{ lead with current_road_index := lead.current_road_index + 1, x := 0 }] }))
              i (fun r => { r with vehicles := r.vehicles.tail })).getD i droad).vehicles.isEmpty
          then setAdd acc.empty
            ((updAt (updAt acc.roads (lead.path.getD (lead.current_road_index + 1) 0)
              (fun r => { r with vehicles := r.vehicles ++
                [{ lead with current_road_index := lead.current_road_index + 1, x := 0 }] }))
              i (fun r => { r with vehicles := r.vehicles.tail })).getD i droad).index
          else acc.empty),
        nmap := acc.nmap,
        waits := acc.waits } := by
  simp only [boundaryStep, hq, List.isEmpty_cons, List.headD_cons, Bool.false_eq_true,
    if_false]
  rw [if_pos hx, if_pos hnext]

theorem boundaryStep_exit (t : ℚ) (acc : BAcc) (i : ℕ) (lead : Vehicle) (rest : List Vehicle)
    (hq : (acc.roads.getD i droad).vehicles = lead :: rest)
    (hx : lead.x ≥ (acc.roads.getD i droad).length)
    (hnext : ¬ lead.current_road_index + 1 < lead.path.length) :
    boundaryStep t acc i =
      { roads := updAt acc.roads i (fun r => { r with vehicles := r.vehicles.tail }),
        new_ne := acc.new_ne,
        empty :=
          (if ((updAt acc.roads i (fun r =>
              { r with vehicles := r.vehicles.tail })).getD i droad).vehicles.isEmpty
          then setAdd acc.empty ((updAt acc.roads i (fun r =>
              { r with vehicles := r.vehicles.tail })).getD i droad).index
          else acc.empty),
        nmap := acc.nmap - 1,
        waits := acc.waits ++ [lead.get_total_waiting_time t] } := by
  simp only [boundaryStep, hq, List.isEmpty_cons, List.headD_cons, Bool.false_eq_true,
    if_false]
  rw [if_pos hx, if_neg hnext]

/-! ## The out-of-bounds loop preserves the active-set invariant -/

theorem boundaryStep_inv (t : ℚ) (len : ℕ) (P R : List ℕ) (i : ℕ) (acc : BAcc)
    (hnd : (P ++ i :: R).Nodup)
    (h : BInv len P (i :: R) acc) :
    BInv len (P ++ [i]) R (boundaryStep t acc i) := by
  obtain ⟨hlen, hidx, hpath, hnew, hemp, hneR, htail, hiff⟩ := h
  have hiR : (acc.roads.getD i droad).vehicles ≠ [] := hneR i (List.mem_cons_self i R)
  have hilt : i < len := by
    have h2 := getD_vehicles_ne_imp_lt hiR
    rwa [hlen] at h2
  have hilen : i < acc.roads.length := by rw [hlen]; exact hilt
  have hPs := List.nodup_append.mp hnd
  have hiP : i ∉ P := fun hmem => (hPs.2.2 hmem) (List.mem_cons_self i R)
  have hiRr : i ∉ R := (List.nodup_cons.mp hPs.2.1).1
  have hiE : i ∉ acc.empty := fun hmem => hiP (hemp i hmem)
  obtain ⟨lead, rest, hq⟩ : ∃ lead rest,
      (acc.roads.getD i droad).vehicles = lead :: rest := by
    cases hcase : (acc.roads.getD i droad).vehicles with
    | nil => exact absurd hcase hiR
    | cons a l => exact ⟨a, l, rfl⟩
  by_cases hx : lead.x ≥ (acc.roads.getD i droad).length
  · by_cases hnext : lead.current_road_index + 1 < lead.path.length
    · -- hand-off branch
      rw [boundaryStep_handoff t acc i lead rest hq hx hnext]
      set nv : Vehicle :=
        { lead with current_road_index := lead.current_road_index + 1, x := 0 } with hnv
      set nxt : ℕ := lead.path.getD (lead.current_road_index + 1) 0 with hnxt
      set roads1 : List Road :=
        updAt acc.roads nxt (fun r => { r with vehicles := r.vehicles ++ [nv] }) with hroads1
      set roads2 : List Road :=
        updAt roads1 i (fun r => { r with vehicles := r.vehicles.tail }) with hroads2
      have hleadmem : lead ∈ (acc.roads.getD i droad).vehicles := by
        rw [hq]; exact List.mem_cons_self _ _
      have hnxtpath : nxt ∈ lead.path := by
        rw [hnxt, List.getD_eq_getElem lead.path 0 hnext]
        exact List.getElem_mem hnext
      have hnxtlen : nxt < len := hpath i lead hleadmem nxt hnxtpath
      have hnxtlen2 : nxt < acc.roads.length := by rw [hlen]; exact hnxtlen
      have hnvpath : nv.path = lead.path := by rw [hnv]
      have hlen1 : roads1.length = acc.roads.length := by
        rw [hroads1, length_updAt]
      have hilen1 : i < roads1.length := by rw [hlen1]; exact hilen
      have hlen2 : roads2.length = len := by
        rw [hroads2, length_updAt, hlen1, hlen]
      have hq1 : ∀ j, (roads1.getD j droad).vehicles =
          if j = nxt then (acc.roads.getD nxt droad).vehicles ++ [nv]
          else (acc.roads.getD j droad).vehicles := by
        intro j
        rw [hroads1, getD_updAt]
        by_cases hj : j = nxt
        · rw [hj, if_pos ⟨rfl, hnxtlen2⟩, if_pos rfl]
        · rw [if_neg (fun hc => hj hc.1), if_neg hj]
      have hq1i : ∀ j, (roads1.getD j droad).index = (acc.roads.getD j droad).index := by
        intro j
        rw [hroads1, getD_updAt]
        by_cases hj : j = nxt
        · rw [hj, if_pos ⟨rfl, hnxtlen2⟩]
        · rw [if_neg (fun hc => hj hc.1)]
      have hq2 : ∀ j, (roads2.getD j droad).vehicles =
          if j = i then ((roads1.getD i droad).vehicles).tail
          else (roads1.getD j droad).vehicles := by
        intro j
        rw [hroads2, getD_updAt]
        by_cases hj : j = i
        · rw [hj, if_pos ⟨rfl, hilen1⟩, if_pos rfl]
        · rw [if_neg (fun hc => hj hc.1), if_neg hj]
      have hq2i : ∀ j, (roads2.getD j droad).index = (acc.roads.getD j droad).index := by
        intro j
        rw [hroads2, getD_updAt]
        by_cases hj : j = i
        · rw [hj, if_pos ⟨rfl, hilen1⟩]
          exact hq1i i
        · rw [if_neg (fun hc => hj hc.1)]
          exact hq1i j
      have hqi2 : (roads2.getD i droad).vehicles =
          if i = nxt then rest ++ [nv] else rest := by
        rw [hq2 i, if_pos rfl, hq1 i]
        by_cases hin : i = nxt
        · rw [if_pos hin, if_pos hin, ← hin, hq, List.cons_append, List.tail_cons]
        · rw [if_neg hin, if_neg hin, hq, List.tail_cons]
      have hqj : ∀ j, j ≠ i → j ≠ nxt →
          (roads2.getD j droad).vehicles = (acc.roads.getD j droad).vehicles := by
        intro j hj1 hj2
        rw [hq2 j, if_neg hj1, hq1 j, if_neg hj2]
      have hqnxt : nxt ≠ i →
          (roads2.getD nxt droad).vehicles =
            (acc.roads.getD nxt droad).vehicles ++ [nv] := by
        intro hni
        rw [hq2 nxt, if_neg hni, hq1 nxt, if_pos rfl]
      have hidxi : (roads2.getD i droad).index = i := by
        rw [hq2i i]; exact hidx i hilt
      have hempmem : ∀ j, (j ∈ (if (roads2.getD i droad).vehicles.isEmpty
            then setAdd acc.empty (roads2.getD i droad).index else acc.empty)) ↔
          (j ∈ acc.empty ∨ ((roads2.getD i droad).vehicles = [] ∧ j = i)) := by
        intro j
        rw [hidxi]
        by_cases he : (roads2.getD i droad).vehicles.isEmpty = true
        · rw [if_pos he, mem_setAdd]
          rw [List.isEmpty_iff] at he
          constructor
          · rintro (h1 | h2)
            · exact Or.inl h1
            · exact Or.inr ⟨he, h2⟩
          · rintro (h1 | ⟨_, h2⟩)
            · exact Or.inl h1
            · exact Or.inr h2
        · rw [if_neg he]
          rw [List.isEmpty_iff] at he
          constructor
          · exact Or.inl
          · rintro (h1 | ⟨hnil, _⟩)
            · exact h1
            · exact absurd hnil he
      refine ⟨hlen2, ?_, ?_, ?_, ?_, ?_, ?_, ?_⟩
      · intro j hj
        rw [hq2i j]
        exact hidx j hj
      · intro j v hv p hp
        by_cases hj1 : j = i
        · rw [hj1, hqi2] at hv
          have hvmem : v ∈ lead :: rest ∨ v = nv := by
            by_cases hin : i = nxt
            · rw [if_pos hin] at hv
              rcases List.mem_append.mp hv with h1 | h2
              · exact Or.inl (List.mem_cons_of_mem _ h1)
              · exact Or.inr (List.mem_singleton.mp h2)
            · rw [if_neg hin] at hv
              exact Or.inl (List.mem_cons_of_mem _ hv)
          rcases hvmem with h1 | rfl
          · refine hpath i v ?_ p hp
            rw [hq]; exact h1
          · rw [hnvpath] at hp
            exact hpath i lead hleadmem p hp
        · by_cases hj2 : j = nxt
          · have hni : nxt ≠ i := by
              intro hc
              exact hj1 (by rw [hj2, hc])
            rw [hj2, hqnxt hni] at hv
            rcases List.mem_append.mp hv with h1 | h2
            · exact hpath nxt v h1 p hp
            · have hveq : v = nv := List.mem_singleton.mp h2
              rw [hveq, hnvpath] at hp
              exact hpath i lead hleadmem p hp
          · rw [hqj j hj1 hj2] at hv
            exact hpath j v hv p hp
      · intro j hj
        rcases mem_setAdd.mp hj with h1 | rfl
        · exact hnew j h1
        · exact hnxtlen
      · intro j hj
        rcases (hempmem j).mp hj with h1 | ⟨_, rfl⟩
        · exact List.mem_append_left _ (hemp j h1)
        · exact List.mem_append_right _ (List.mem_singleton.mpr rfl)
      · intro j hjR
        have hj1 : j ≠ i := fun hcon => hiRr (hcon ▸ hjR)
        by_cases hj2 : j = nxt
        · have hni : nxt ≠ i := by
            intro hc
            exact hj1 (by rw [hj2, hc])
          rw [hj2, hqnxt hni]
          simp
        · rw [hqj j hj1 hj2]
          exact hneR j (List.mem_cons_of_mem _ hjR)
      · intro j hjR hjn
        have hj1 : j ≠ i := fun hcon => hiRr (hcon ▸ hjR)
        by_cases hj2 : j = nxt
        · have hni : nxt ≠ i := by
            intro hc
            exact hj1 (by rw [hj2, hc])
          rw [hj2] at hjR
          rw [hj2, hqnxt hni]
          obtain ⟨a, l, hal⟩ : ∃ a l,
              (acc.roads.getD nxt droad).vehicles = a :: l := by
            cases hcase : (acc.roads.getD nxt droad).vehicles with
            | nil => exact absurd hcase (hneR nxt (List.mem_cons_of_mem _ hjR))
            | cons a l => exact ⟨a, l, rfl⟩
          rw [hal, List.cons_append, List.tail_cons]
          simp
        · rw [hqj j hj1 hj2]
          have hjn2 : j ∈ acc.new_ne := (mem_setAdd.mp hjn).resolve_right hj2
          exact htail j (List.mem_cons_of_mem _ hjR) hjn2
      · intro j
        by_cases hj1 : j = i
        · by_cases hin : i = nxt
          · have hv : (roads2.getD j droad).vehicles = rest ++ [nv] := by
              rw [hj1, hqi2, if_pos hin]
            constructor
            · intro _
              refine Or.inr (Or.inl (mem_setAdd.mpr (Or.inr ?_)))
              rw [hj1, hin]
            · intro _
              rw [hv]
              simp
          · have hv : (roads2.getD j droad).vehicles = rest := by
              rw [hj1, hqi2, if_neg hin]
            cases hrest : rest with
            | nil =>
              rw [hrest] at hv
              constructor
              · intro hcon
                exact absurd hv hcon
              · rintro (hR | hN | ⟨hP2, hE⟩)
                · rw [hj1] at hR
                  exact absurd hR hiRr
                · rcases mem_setAdd.mp hN with h1 | h2
                  · rw [hj1] at h1
                    have h3 := htail i (List.mem_cons_self i R) h1
                    rw [hq, List.tail_cons, hrest] at h3
                    exact absurd rfl h3
                  · rw [hj1] at h2
                    exact absurd h2 hin
                · refine absurd ?_ hE
                  refine (hempmem j).mpr (Or.inr ⟨?_, hj1⟩)
                  rw [hj1] at hv
                  exact hv
            | cons a l =>
              rw [hrest] at hv
              constructor
              · intro _
                refine Or.inr (Or.inr ⟨?_, ?_⟩)
                · rw [hj1]
                  exact List.mem_append_right _ (by simp)
                · intro hcon
                  rcases (hempmem j).mp hcon with h1 | ⟨hnil, _⟩
                  · rw [hj1] at h1
                    exact hiE h1
                  · rw [hj1] at hv
                    rw [hv] at hnil
                    cases hnil
              · intro _
                rw [hv]
                simp
        · by_cases hj2 : j = nxt
          · have hni : nxt ≠ i := by
              intro hc
              exact hj1 (by rw [hj2, hc])
            have hv : (roads2.getD j droad).vehicles =
                (acc.roads.getD nxt droad).vehicles ++ [nv] := by
              rw [hj2, hqnxt hni]
            constructor
            · intro _
              refine Or.inr (Or.inl (mem_setAdd.mpr (Or.inr hj2)))
            · intro _
              rw [hv]
              simp
          · have hv : ((roads2.getD j droad).vehicles ≠ []) ↔
                ((acc.roads.getD j droad).vehicles ≠ []) := by
              rw [hqj j hj1 hj2]
            refine hv.trans ((hiff j).trans ?_)
            have hemp2 : (j ∈ (if (roads2.getD i droad).vehicles.isEmpty
                then setAdd acc.empty (roads2.getD i droad).index else acc.empty)) ↔
                j ∈ acc.empty := by
              rw [hempmem j]
              constructor
              · rintro (h1 | ⟨_, h2⟩)
                · exact h1
                · exact absurd h2 hj1
              · exact Or.inl
            constructor
            · rintro (h1 | h2 | ⟨h3, h4⟩)
              · rcases List.mem_cons.mp h1 with hcon | h1b
                · exact absurd hcon hj1
                · exact Or.inl h1b
              · exact Or.inr (Or.inl (mem_setAdd.mpr (Or.inl h2)))
              · exact Or.inr (Or.inr
                  ⟨List.mem_append_left _ h3, fun hc => h4 (hemp2.mp hc)⟩)
            · rintro (h1 | h2 | ⟨h3, h4⟩)
              · exact Or.inl (List.mem_cons_of_mem _ h1)
              · rcases mem_setAdd.mp h2 with h2b | h2b
                · exact Or.inr (Or.inl h2b)
                · exact absurd h2b hj2
              · refine Or.inr (Or.inr ⟨?_, fun hc => h4 (hemp2.mpr hc)⟩)
                rcases List.mem_append.mp h3 with h5 | h5
                · exact h5
                · exact absurd (List.mem_singleton.mp h5) hj1
    · -- exit branch
      rw [boundaryStep_exit t acc i lead rest hq hx hnext]
      set roads2 : List Road :=
        updAt acc.roads i (fun r => { r with vehicles := r.vehicles.tail }) with hroads2
      have hlen2 : roads2.length = len := by
        rw [hroads2, length_updAt, hlen]
      have hq2 : ∀ j, (roads2.getD j droad).vehicles =
          if j = i then rest else (acc.roads.getD j droad).vehicles := by
        intro j
        rw [hroads2, getD_updAt]
        by_cases hj : j = i
        · rw [hj, if_pos ⟨rfl, hilen⟩, if_pos rfl]
          show (acc.roads.getD i droad).vehicles.tail = rest
          rw [hq, List.tail_cons]
        · rw [if_neg (fun hc => hj hc.1), if_neg hj]
      have hq2i : ∀ j, (roads2.getD j droad).index = (acc.roads.getD j droad).index := by
        intro j
        rw [hroads2, getD_updAt]
        by_cases hj : j = i
        · rw [hj, if_pos ⟨rfl, hilen⟩]
        · rw [if_neg (fun hc => hj hc.1)]
      have hidxi : (roads2.getD i droad).index = i := by
        rw [hq2i i]; exact hidx i hilt
      have hempmem : ∀ j, (j ∈ (if (roads2.getD i droad).vehicles.isEmpty
            then setAdd acc.empty (roads2.getD i droad).index else acc.empty)) ↔
          (j ∈ acc.empty ∨ ((roads2.getD i droad).vehicles = [] ∧ j = i)) := by
        intro j
        rw [hidxi]
        by_cases he : (roads2.getD i droad).vehicles.isEmpty = true
        · rw [if_pos he, mem_setAdd]
          rw [List.isEmpty_iff] at he
          constructor
          · rintro (h1 | h2)
            · exact Or.inl h1
            · exact Or.inr ⟨he, h2⟩
          · rintro (h1 | ⟨_, h2⟩)
            · exact Or.inl h1
            · exact Or.inr h2
        · rw [if_neg he]
          rw [List.isEmpty_iff] at he
          constructor
          · exact Or.inl
          · rintro (h1 | ⟨hnil, _⟩)
            · exact h1
            · exact absurd hnil he
      refine ⟨hlen2, ?_, ?_, hnew, ?_, ?_, ?_, ?_⟩
      · intro j hj
        rw [hq2i j]
        exact hidx j hj
      · intro j v hv p hp
        rw [hq2 j] at hv
        by_cases hj1 : j = i
        · rw [if_pos hj1] at hv
          refine hpath i v ?_ p hp
          rw [hq]
          exact List.mem_cons_of_mem _ hv
        · rw [if_neg hj1] at hv
          exact hpath j v hv p hp
      · intro j hj
        rcases (hempmem j).mp hj with h1 | ⟨_, rfl⟩
        · exact List.mem_append_left _ (hemp j h1)
        · exact List.mem_append_right _ (List.mem_singleton.mpr rfl)
      · intro j hjR
        have hj1 : j ≠ i := fun hcon => hiRr (hcon ▸ hjR)
        rw [hq2 j, if_neg hj1]
        exact hneR j (List.mem_cons_of_mem _ hjR)
      · intro j hjR hjn
        have hj1 : j ≠ i := fun hcon => hiRr (hcon ▸ hjR)
        rw [hq2 j, if_neg hj1]
        exact htail j (List.mem_cons_of_mem _ hjR) hjn
      · intro j
        by_cases hj1 : j = i
        · have hv : (roads2.getD j droad).vehicles = rest := by
            rw [hq2 j, if_pos hj1]
          cases hrest : rest with
          | nil =>
            rw [hrest] at hv
            constructor
            · intro hcon
              exact absurd hv hcon
            · rintro (hR | hN | ⟨hP2, hE⟩)
              · rw [hj1] at hR
                exact absurd hR hiRr
              · rw [hj1] at hN
                have h3 := htail i (List.mem_cons_self i R) hN
                rw [hq, List.tail_cons, hrest] at h3
                exact absurd rfl h3
              · refine absurd ?_ hE
                refine (hempmem j).mpr (Or.inr ⟨?_, hj1⟩)
                rw [hj1] at hv
                exact hv
          | cons a l =>
            rw [hrest] at hv
            constructor
            · intro _
              refine Or.inr (Or.inr ⟨?_, ?_⟩)
              · rw [hj1]
                exact List.mem_append_right _ (by simp)
              · intro hcon
                rcases (hempmem j).mp hcon with h1 | ⟨hnil, _⟩
                · rw [hj1] at h1
                  exact hiE h1
                · rw [hj1] at hv
                  rw [hv] at hnil
                  cases hnil
            · intro _
              rw [hv]
              simp
        · have hv : ((roads2.getD j droad).vehicles ≠ []) ↔
              ((acc.roads.getD j droad).vehicles ≠ []) := by
            rw [hq2 j, if_neg hj1]
          refine hv.trans ((hiff j).trans ?_)
          have hemp2 : (j ∈ (if (roads2.getD i droad).vehicles.isEmpty
              then setAdd acc.empty (roads2.getD i droad).index else acc.empty)) ↔
              j ∈ acc.empty := by
            rw [hempmem j]
            constructor
            · rintro (h1 | ⟨_, h2⟩)
              · exact h1
              · exact absurd h2 hj1
            · exact Or.inl
          constructor
          · rintro (h1 | h2 | ⟨h3, h4⟩)
            · rcases List.mem_cons.mp h1 with hcon | h1b
              · exact absurd hcon hj1
              · exact Or.inl h1b
            · exact Or.inr (Or.inl h2)
            · exact Or.inr (Or.inr
                ⟨List.mem_append_left _ h3, fun hc => h4 (hemp2.mp hc)⟩)
          · rintro (h1 | h2 | ⟨h3, h4⟩)
            · exact Or.inl (List.mem_cons_of_mem _ h1)
            · exact Or.inr (Or.inl h2)
            · refine Or.inr (Or.inr ⟨?_, fun hc => h4 (hemp2.mpr hc)⟩)
              rcases List.mem_append.mp h3 with h5 | h5
              · exact h5
              · exact absurd (List.mem_singleton.mp h5) hj1
  · -- stay branch
    rw [boundaryStep_stay t acc i lead rest hq hx]
    refine ⟨hlen, hidx, hpath, hnew, ?_, ?_, ?_, ?_⟩
    · intro j hj
      exact List.mem_append_left _ (hemp j hj)
    · intro j hjR
      exact hneR j (List.mem_cons_of_mem _ hjR)
    · intro j hjR hjn
      exact htail j (List.mem_cons_of_mem _ hjR) hjn
    · intro j
      refine (hiff j).trans ?_
      by_cases hj1 : j = i
      · constructor
        · intro _
          refine Or.inr (Or.inr ⟨?_, ?_⟩)
          · rw [hj1]
            exact List.mem_append_right _ (by simp)
          · rw [hj1]
            exact hiE
        · intro _
          rw [hj1]
          exact Or.inl (List.mem_cons_self i R)
      · constructor
        · rintro (h1 | h2 | ⟨h3, h4⟩)
          · rcases List.mem_cons.mp h1 with hcon | h1b
            · exact absurd hcon hj1
            · exact Or.inl h1b
          · exact Or.inr (Or.inl h2)
          · exact Or.inr (Or.inr ⟨List.mem_append_left _ h3, h4⟩)
        · rintro (h1 | h2 | ⟨h3, h4⟩)
          · exact Or.inl (List.mem_cons_of_mem _ h1)
          · exact Or.inr (Or.inl h2)
          · refine Or.inr (Or.inr ⟨?_, h4⟩)
            rcases List.mem_append.mp h3 with h5 | h5
            · exact h5
            · exact absurd (List.mem_singleton.mp h5) hj1

theorem boundaryFold_inv (t : ℚ) (len : ℕ) (R : List ℕ) :
    ∀ (P : List ℕ) (acc : BAcc), (P ++ R).Nodup → BInv len P R acc →
      BInv len (P ++ R) [] (R.foldl (boundaryStep t) acc) := by
  induction R with
  | nil =>
    intro P acc _ h
    simpa using h
  | cons i R ih =>
    intro P acc hnd h
    rw [List.foldl_cons]
    have hpr : P ++ i :: R = (P ++ [i]) ++ R := by
      rw [List.append_assoc, List.singleton_append]
    have hnd2 : ((P ++ [i]) ++ R).Nodup := by rw [← hpr]; exact hnd
    have hstep := boundaryStep_inv t len P R i acc hnd h
    have hres := ih (P ++ [i]) (boundaryStep t acc i) hnd2 hstep
    rw [hpr]
    exact hres

theorem boundaryPhase_activeInv (s : Simulation)
    (h1 : activeInv s) (hnd : s._non_empty_roads.Nodup) (h3 : idxOk s)
    (h4 : ∀ j, ∀ v ∈ (s.roads.getD j droad).vehicles, ∀ p ∈ v.path, p < s.roads.length) :
    activeInv (boundaryPhase s) := by
  have hstart : BInv s.roads.length [] s._non_empty_roads
      ⟨s.roads, [], [], s.n_vehicles_on_map, s._waiting_times⟩ := by
    refine ⟨rfl, h3, h4, ?_, ?_, ?_, ?_, ?_⟩
    · intro j hj
      cases hj
    · intro j hj
      cases hj
    · intro j hj
      exact (h1.1 j hj).2
    · intro j _ hj
      cases hj
    · intro j
      constructor
      · intro hne
        exact Or.inl (h1.2 j (getD_vehicles_ne_imp_lt hne) hne)
      · rintro (hj | hj | ⟨hj, _⟩)
        · exact (h1.1 j hj).2
        · cases hj
        · cases hj
  have hres := boundaryFold_inv s.t s.roads.length s._non_empty_roads []
      ⟨s.roads, [], [], s.n_vehicles_on_map, s._waiting_times⟩ (by simpa using hnd) hstart
  obtain ⟨hlen, hidx2, hpath2, hnew, hemp, hR, hT, hiff⟩ := hres
  have hlen2 : (boundaryPhase s).roads.length = s.roads.length := hlen
  constructor
  · intro j hj
    rcases mem_setUnion.mp hj with hd | hn
    · rcases mem_setDiff.mp hd with ⟨hjne, hjnemp⟩
      constructor
      · rw [hlen2]
        exact (h1.1 j hjne).1
      · exact (hiff j).mpr (Or.inr (Or.inr ⟨hjne, hjnemp⟩))
    · constructor
      · rw [hlen2]
        exact hnew j hn
      · exact (hiff j).mpr (Or.inr (Or.inl hn))
  · intro j hjlt hjne
    rcases (hiff j).mp hjne with hj | hj | ⟨hj1, hj2⟩
    · cases hj
    · exact mem_setUnion.mpr (Or.inr hj)
    · exact mem_setUnion.mpr (Or.inl (mem_setDiff.mpr ⟨hj1, hj2⟩))

theorem activeInv_detect (s : Simulation) (h : activeInv s) :
    activeInv (Simulation.detect_collisions s) := by
  rcases detect_collisions_cases s with hc | hc <;> rw [hc] <;> exact h

theorem update_activeInv (motion : Motion) (s : Simulation)
    (h1 : activeInv s) (hnd : s._non_empty_roads.Nodup)
    (h3 : idxOk s) (h4 : pathOk s) (h5 : genOk s) :
    activeInv (Simulation.update motion s) := by
  obtain ⟨m1, m3, m4⟩ := motionPhase_WF motion s h1 hnd h3 h4
  have hnd1 : (motionPhase motion s)._non_empty_roads.Nodup := hnd
  have h5b : genOk (motionPhase motion s) := by
    intro g hg tt n ri v hgen
    have hres := h5 g hg tt n ri v hgen
    rw [motionPhase_roads_length]
    exact hres
  obtain ⟨g1, gnd, g3, g4⟩ := genPhase_WF (motionPhase motion s) m1 hnd1 m3 m4 h5b
  have hbound := boundaryPhase_activeInv (genPhase (motionPhase motion s)) g1 gnd g3 g4
  have hdet := activeInv_detect _ hbound
  unfold Simulation.update
  rw [guiPhase_eq]
  exact hdet

/-! ## Idle simulations: a tick only advances the clock -/

theorem update_inert (motion : Motion) (s : Simulation)
    (hg : s.generators = []) (hw : s._gui = none) (hn : s._non_empty_roads = []) :
    Simulation.update motion s = { s with t := s.t + s.dt } := by
  obtain ⟨t0, dt0, roads0, gens0, sig0, col0, ngen0, nmap0, gui0, ne0, int0, mg0, wt0⟩ := s
  have hg2 : gens0 = [] := hg
  have hw2 : gui0 = none := hw
  have hn2 : ne0 = [] := hn
  subst hg2 hw2 hn2
  rfl

theorem completed_none {s : Simulation} (hc : s.collision_detected = false)
    (hm : s._max_gen = none) : s.completed = false := by
  unfold Simulation.completed
  rw [hc, hm]
  rfl

theorem gui_closed_none {s : Simulation} (hw : s._gui = none) : s.gui_closed = false := by
  unfold Simulation.gui_closed
  rw [hw]

theorem loop_inert (motion : Motion) (n : ℕ) (s : Simulation)
    (hg : s.generators = []) (hw : s._gui = none) (hn : s._non_empty_roads = [])
    (hc : s.collision_detected = false) (hm : s._max_gen = none) :
    Simulation.loop motion n s = { s with t := s.t + n * s.dt } := by
  induction n generalizing s with
  | zero =>
    rw [Simulation.loop]
    rw [show s.t + ((0 : ℕ) : ℚ) * s.dt = s.t from by push_cast; ring]
  | succ n ih =>
    rw [Simulation.loop]
    rw [update_inert motion s hg hw hn]
    have hc1 : ({ s with t := s.t + s.dt } : Simulation).completed = false :=
      completed_none hc hm
    have hw1 : ({ s with t := s.t + s.dt } : Simulation).gui_closed = false :=
      gui_closed_none hw
    rw [hc1, hw1]
    rw [if_neg (by simp)]
    rw [ih { s with t := s.t + s.dt } hg hw hn hc hm]
    show ({ s with t := (s.t + s.dt) + (n : ℚ) * s.dt } : Simulation) = _
    rw [show (s.t + s.dt) + (n : ℚ) * s.dt = s.t + ((n + 1 : ℕ) : ℚ) * s.dt from by
      push_cast; ring]

theorem run_inert (motion : Motion) (n : ℕ) (s : Simulation)
    (hg : s.generators = []) (hw : s._gui = none) (hn : s._non_empty_roads = [])
    (hc : s.collision_detected = false) (hm : s._max_gen = none) :
    Simulation.run motion true n s =
      { s with t := s.t + ((200 + n : ℕ) : ℚ) * s.dt,
               traffic_signals :=
                 (s.traffic_signals.map TrafficSignal.update).map TrafficSignal.update } := by
  obtain ⟨t0, dt0, roads0, gens0, sig0, col0, ngen0, nmap0, gui0, ne0, int0, mg0, wt0⟩ := s
  have hg2 : gens0 = [] := hg
  have hw2 : gui0 = none := hw
  have hn2 : ne0 = [] := hn
  have hc2 : col0 = false := hc
  have hm2 : mg0 = none := hm
  subst hg2 hw2 hn2 hc2 hm2
  have hsig : ∀ x : Simulation, Simulation.update_signals x =
      { x with traffic_signals := x.traffic_signals.map TrafficSignal.update } :=
    fun _ => rfl
  have hcomp : (Simulation.loop motion 200 (Simulation.update_signals
      ⟨t0, dt0, roads0, [], sig0, false, ngen0, nmap0, none, [], int0, none,
        wt0⟩)).completed = false := by
    rw [hsig _, loop_inert motion 200 _ rfl rfl rfl rfl rfl]
    rfl
  have hgui : (Simulation.loop motion 200 (Simulation.update_signals
      ⟨t0, dt0, roads0, [], sig0, false, ngen0, nmap0, none, [], int0, none,
        wt0⟩)).gui_closed = false := by
    rw [hsig _, loop_inert motion 200 _ rfl rfl rfl rfl rfl]
    rfl
  unfold Simulation.run
  rw [if_pos rfl, hcomp, hgui, if_neg (by simp)]
  rw [hsig _, loop_inert motion 200 _ rfl rfl rfl rfl rfl, hsig _,
    loop_inert motion n _ rfl rfl rfl rfl rfl]
  show (⟨(t0 + ((200 : ℕ) : ℚ) * dt0) + (n : ℚ) * dt0, dt0, roads0, [],
    (sig0.map TrafficSignal.update).map TrafficSignal.update, false, ngen0, nmap0,
    none, [], int0, none, wt0⟩ : Simulation) = _
  rw [show (t0 + ((200 : ℕ) : ℚ) * dt0) + (n : ℚ) * dt0 =
    t0 + ((200 + n : ℕ) : ℚ) * dt0 from by push_cast; ring]

/-! ## Signal bookkeeping through loops and runs -/

theorem loop_signals (motion : Motion) (n : ℕ) (s : Simulation) :
    (Simulation.loop motion n s).traffic_signals = s.traffic_signals := by
  induction n generalizing s with
  | zero => rfl
  | succ n ih =>
    rw [Simulation.loop]
    split
    · exact update_signals_eq motion s
    · rw [ih]
      exact update_signals_eq motion s

theorem update_signals_map (s : Simulation) :
    (Simulation.update_signals s).traffic_signals =
      s.traffic_signals.map TrafficSignal.update := rfl

/-! ## Collision stickiness through loops, runs and operation sequences -/

theorem loop_flag_true (motion : Motion) (n : ℕ) {s : Simulation}
    (h : s.collision_detected = true) :
    (Simulation.loop motion n s).collision_detected = true := by
  induction n generalizing s with
  | zero => exact h
  | succ n ih =>
    rw [Simulation.loop]
    split
    · exact update_flag_true motion h
    · exact ih (update_flag_true motion h)

theorem update_signals_flag (s : Simulation) :
    (Simulation.update_signals s).collision_detected = s.collision_detected := rfl

theorem run_flag_true (motion : Motion) (a : Bool) (n : ℕ) {s : Simulation}
    (h : s.collision_detected = true) :
    (Simulation.run motion a n s).collision_detected = true := by
  unfold Simulation.run
  split
  · split
    · refine loop_flag_true motion 200 ?_
      rw [update_signals_flag]
      exact h
    · refine loop_flag_true motion n ?_
      rw [update_signals_flag]
      refine loop_flag_true motion 200 ?_
      rw [update_signals_flag]
      exact h
  · exact loop_flag_true motion n h

theorem detect_flag_true2 {s : Simulation} (h : s.collision_detected = true) :
    (Simulation.detect_collisions s).collision_detected = true :=
  detect_collisions_flag_true h

theorem applyOps_flag_true (motion : Motion) (ops : List SimOp) {s : Simulation}
    (h : s.collision_detected = true) :
    (applyOps motion ops s).collision_detected = true := by
  induction ops generalizing s with
  | nil => exact h
  | cons op ops ih =>
    rw [applyOps]
    refine ih ?_
    cases op with
    | upd => exact update_flag_true motion h
    | runOp a n => exact run_flag_true motion a n h
    | detect => exact detect_collisions_flag_true h

/-! ## The generation cap through single ticks and iterated ticks -/

theorem runGens_cap (t : ℚ) (m : ℕ) (hm : m ≠ 0) (gs : List GenFun) (acc : GenAcc)
    (h : acc.ngen ≤ m) : (runGens t (some m) gs acc).ngen ≤ m := by
  induction gs generalizing acc with
  | nil => exact h
  | cons g gs ih =>
    rw [runGens]
    by_cases hbr : genBreak (some m) acc.ngen = true
    · rw [if_pos hbr]
      exact h
    · rw [if_neg hbr]
      have hlt : acc.ngen < m := by
        unfold genBreak at hbr
        rcases Nat.lt_or_ge acc.ngen m with h1 | h1
        · exact h1
        · have heq : acc.ngen = m := Nat.le_antisymm h h1
          exact absurd (by simp [heq, hm]) hbr
      cases hge : g t acc.ngen with
      | none => exact ih acc h
      | some pair =>
        obtain ⟨ri, v⟩ := pair
        exact ih _ hlt

theorem runGens_stopped (t : ℚ) (m : ℕ) (hm : m ≠ 0) (gs : List GenFun) (acc : GenAcc)
    (h : acc.ngen = m) : runGens t (some m) gs acc = acc := by
  cases gs with
  | nil => rfl
  | cons g gs =>
    rw [runGens]
    rw [if_pos (by simp [genBreak, h, hm])]

theorem update_cap (motion : Motion) (s : Simulation) (m : ℕ) (hm : m ≠ 0)
    (hmax : s._max_gen = some m) (h : s.n_vehicles_generated ≤ m) :
    (Simulation.update motion s).n_vehicles_generated ≤ m := by
  rw [update_ngen]
  show (runGens (motionPhase motion s).t (motionPhase motion s)._max_gen
    (motionPhase motion s).generators
    ⟨(motionPhase motion s).roads, (motionPhase motion s)._non_empty_roads,
      (motionPhase motion s).n_vehicles_generated,
      (motionPhase motion s).n_vehicles_on_map⟩).ngen ≤ m
  have hmax2 : (motionPhase motion s)._max_gen = some m := hmax
  rw [hmax2]
  exact runGens_cap _ m hm _ _ h

theorem update_cap_exact (motion : Motion) (s : Simulation) (m : ℕ) (hm : m ≠ 0)
    (hmax : s._max_gen = some m) (h : s.n_vehicles_generated = m) :
    (Simulation.update motion s).n_vehicles_generated = m := by
  rw [update_ngen]
  show (runGens (motionPhase motion s).t (motionPhase motion s)._max_gen
    (motionPhase motion s).generators
    ⟨(motionPhase motion s).roads, (motionPhase motion s)._non_empty_roads,
      (motionPhase motion s).n_vehicles_generated,
      (motionPhase motion s).n_vehicles_on_map⟩).ngen = m
  have hmax2 : (motionPhase motion s)._max_gen = some m := hmax
  rw [hmax2, runGens_stopped _ m hm _ _ h]
  exact h

theorem iterate_cap (motion : Motion) (s : Simulation) (m : ℕ) (hm : m ≠ 0)
    (hmax : s._max_gen = some m) (h : s.n_vehicles_generated ≤ m) (k : ℕ) :
    ((Simulation.update motion)^[k] s).n_vehicles_generated ≤ m := by
  induction k generalizing s with
  | zero => exact h
  | succ k ih =>
    rw [Function.iterate_succ_apply]
    exact ih (Simulation.update motion s)
      (by rw [update_max_gen]; exact hmax) (update_cap motion s m hm hmax h)

theorem iterate_cap_exact (motion : Motion) (s : Simulation) (m : ℕ) (hm : m ≠ 0)
    (hmax : s._max_gen = some m) (h : s.n_vehicles_generated = m) (k : ℕ) :
    ((Simulation.update motion)^[k] s).n_vehicles_generated = m := by
  induction k generalizing s with
  | zero => exact h
  | succ k ih =>
    rw [Function.iterate_succ_apply]
    exact ih (Simulation.update motion s)
      (by rw [update_max_gen]; exact hmax) (update_cap_exact motion s m hm hmax h)

/-! ## The squared-distance embedding of the Euclidean radius check -/

theorem sqDist_lt_four_iff (p q : ℚ × ℚ) :
    Real.sqrt (((p.1 : ℝ) - q.1) ^ 2 + ((p.2 : ℝ) - q.2) ^ 2) < 2 ↔ sqDist p q < 4 := by
  have hnn : (0 : ℝ) ≤ ((p.1 : ℝ) - q.1) ^ 2 + ((p.2 : ℝ) - q.2) ^ 2 := by positivity
  rw [show (2 : ℝ) = Real.sqrt 4 by
    rw [show (4 : ℝ) = 2 ^ 2 by norm_num, Real.sqrt_sq (by norm_num : (0:ℝ) ≤ 2)]]
  rw [Real.sqrt_lt_sqrt_iff hnn]
  rw [show ((p.1 : ℝ) - q.1) ^ 2 + ((p.2 : ℝ) - q.2) ^ 2 = ((sqDist p q : ℚ) : ℝ) from by
    unfold sqDist
    push_cast
    ring]
  exact_mod_cast Iff.rfl

/-! ## Characterization of the completion predicate -/

theorem completed_iff (s : Simulation) :
    s.completed = true ↔ (s.collision_detected = true ∨
      ∃ m, s._max_gen = some m ∧ m ≠ 0 ∧ s.n_vehicles_generated = m ∧
        s.n_vehicles_on_map = 0) := by
  unfold Simulation.completed
  cases hmg : s._max_gen with
  | none => simp
  | some m =>
    simp only [Bool.or_eq_true, Bool.and_eq_true, decide_eq_true_eq,
      Option.some.injEq]
    constructor
    · rintro (h1 | ⟨⟨h2, h3⟩, h4⟩)
      · exact Or.inl h1
      · exact Or.inr ⟨m, rfl, h2, h3, h4⟩
    · rintro (h1 | ⟨m2, hm2, h2, h3, h4⟩)
      · exact Or.inl h1
      · cases hm2
        exact Or.inr ⟨⟨h2, h3⟩, h4⟩

/-! ## The claims -/

/-- Claim C10: for every simulation state with no registered generators, no
attached display, and an empty active-road set, a call to update() changes
only the clock t, advancing it by exactly dt: the resulting state is the
input state with t replaced by t + dt, so the roads list, both vehicle
counters, the collision flag, the wait-time log, the static intersections
mapping, the active-road set and dt itself are all unchanged.  The motion
model is arbitrary. -/
theorem c10_frame_inert_update (motion : Motion) (s : Simulation)
    (hg : s.generators = []) (hw : s._gui = none) (hn : s._non_empty_roads = []) :
    Simulation.update motion s = { s with t := s.t + s.dt } :=
  update_inert motion s hg hw hn

/-- Witness for C10 at the freshly constructed simulation. -/
theorem c10_frame_inert_update_witness :
    Simulation.update motion0 (Simulation.init none) =
      { Simulation.init none with
          t := (Simulation.init none).t + (Simulation.init none).dt } :=
  c10_frame_inert_update motion0 (Simulation.init none) rfl rfl rfl

/-- Claim C6: collision_detected is sticky: from any state in which it is
true, no sequence of subsequent update(), run(...) or detect_collisions()
calls ever resets it, and completed stays true throughout. -/
theorem c6_collision_sticky (motion : Motion) (ops : List SimOp) (s : Simulation)
    (h : s.collision_detected = true) :
    (applyOps motion ops s).collision_detected = true ∧
      (applyOps motion ops s).completed = true := by
  have hflag := applyOps_flag_true motion ops h
  exact ⟨hflag, completed_of_flag hflag⟩

/-- Witness for C6: a collided state stays collided and completed through an
update, a detection scan and a run. -/
theorem c6_collision_sticky_witness :
    (applyOps motion0 [SimOp.upd, SimOp.detect, SimOp.runOp true 3]
        c6sim).collision_detected = true ∧
      (applyOps motion0 [SimOp.upd, SimOp.detect, SimOp.runOp true 3]
        c6sim).completed = true :=
  c6_collision_sticky motion0 [SimOp.upd, SimOp.detect, SimOp.runOp true 3] c6sim rfl

/-- Claim C4, counterexample to the claim as stated: with the generation
limit set (to 0), the limit reached (0 generated) and the map empty, the
spec's completed is true but the code's completed is false, because Python's
`self._max_gen and ...` treats the set limit 0 as falsy. -/
theorem c4_completed_counterexample :
    completedSpec (Simulation.init (some 0)) = true ∧
      (Simulation.init (some 0)).completed = false := by
  constructor <;> rfl

/-- Claim C4 (amended: the limit must be nonzero for the reached-limit arm):
completed is true iff a collision was detected, or the generation limit is
set to a nonzero value, n_vehicles_generated equals it, and
n_vehicles_on_map is zero.  completed is a plain function of the state, so
evaluating it modifies nothing. -/
theorem c4_completed_iff (s : Simulation) :
    s.completed = true ↔ (s.collision_detected = true ∨
      ∃ m, s._max_gen = some m ∧ m ≠ 0 ∧ s.n_vehicles_generated = m ∧
        s.n_vehicles_on_map = 0) :=
  completed_iff s

/-- Claim C9: get_average_wait_time() returns 0 whenever the
completed-wait-times log is empty, and otherwise the arithmetic mean (sum
divided by length) of the samples; the empty-log guard makes the division
unreachable there, and the function is total in the embedding (the source
never raises because `mean` is only called on a non-empty list). -/
theorem c9_average_wait_time (s : Simulation) :
    (s._waiting_times = [] → s.get_average_wait_time = 0) ∧
      (s._waiting_times ≠ [] → s.get_average_wait_time =
        s._waiting_times.sum / s._waiting_times.length) := by
  constructor
  · intro h
    unfold Simulation.get_average_wait_time
    rw [if_pos (by rw [h]; rfl)]
  · intro h
    unfold Simulation.get_average_wait_time
    rw [if_neg (by rw [List.isEmpty_iff]; exact h)]

/-- Witness for C9 on an empty and on a two-sample log. -/
theorem c9_average_wait_time_witness :
    (Simulation.init none).get_average_wait_time = 0 ∧
      c9sim.get_average_wait_time =
        c9sim._waiting_times.sum / c9sim._waiting_times.length :=
  ⟨(c9_average_wait_time (Simulation.init none)).1 rfl,
   (c9_average_wait_time c9sim).2 (by decide)⟩

/-- Claim C5, counterexample to the claim as stated: with the generation
limit set at construction to 0, the break guard `self._max_gen and ...` is
falsy, so an always-spawning generator is still consulted and after one tick
n_vehicles_generated = 1 exceeds the limit 0. -/
theorem c5_cap_counterexample :
    c5sim._max_gen = some 0 ∧
      (Simulation.update motion0 c5sim).n_vehicles_generated = 1 := by
  constructor <;> rfl

/-- Claim C5 (amended: the limit must be nonzero): whenever a nonzero
generation limit m is set and n_vehicles_generated ≤ m, after every number
of further ticks the counter stays ≤ m; and once the counter equals m, every
later tick leaves it exactly at m — the loop stops asking generators, so no
spawn happens in that tick or any later tick (the bound holds for arbitrary,
even always-spawning, generators). -/
theorem c5_generation_cap (motion : Motion) (s : Simulation) (m : ℕ) (hm : m ≠ 0)
    (hmax : s._max_gen = some m) (h : s.n_vehicles_generated ≤ m) (k : ℕ) :
    ((Simulation.update motion)^[k] s).n_vehicles_generated ≤ m ∧
      (s.n_vehicles_generated = m →
        ((Simulation.update motion)^[k] s).n_vehicles_generated = m) :=
  ⟨iterate_cap motion s m hm hmax h k,
   fun he => iterate_cap_exact motion s m hm hmax he k⟩

/-- Witness for C5: limit 1 already reached, an always-spawning generator
registered, three further ticks. -/
theorem c5_generation_cap_witness :
    ((Simulation.update motion0)^[3] c5wsim).n_vehicles_generated ≤ 1 ∧
      ((Simulation.update motion0)^[3] c5wsim).n_vehicles_generated = 1 :=
  ⟨(c5_generation_cap motion0 c5wsim 1 (by decide) rfl (by decide) 3).1,
   (c5_generation_cap motion0 c5wsim 1 (by decide) rfl (by decide) 3).2 rfl⟩

/-- Claim C2: for every well-formed reachable simulation state — the active
set currently matches the queues and is duplicate-free, road indices equal
their list positions, and vehicle paths and generator outputs reference only
existing roads — after every call of update() the set _non_empty_roads holds
exactly the road indices whose vehicle queue is non-empty: no stale entries
remain and no index of an occupied road is missing. -/
theorem c2_active_set_exact (motion : Motion) (s : Simulation)
    (h1 : activeInv s) (h2 : s._non_empty_roads.Nodup)
    (h3 : idxOk s) (h4 : pathOk s) (h5 : genOk s) :
    activeInv (Simulation.update motion s) :=
  update_activeInv motion s h1 h2 h3 h4 h5

/-- Witness for C2 on a state whose single vehicle is handed off to the next
road by the witnessed tick (the active set changes from road 0 to road 1). -/
theorem c2_active_set_exact_witness : activeInv (Simulation.update motion0 c2wsim) :=
  c2_active_set_exact motion0 c2wsim (by unfold activeInv; decide) (by decide)
    (by unfold idxOk; decide) (by unfold pathOk; decide)
    (fun g hg => absurd hg (List.not_mem_nil g))

/-- Claim C3, counterexample to the claim as stated: on an idle simulation
that never completes (no cap, no collisions, open display absent), a single
run(action=truthy, n=200) invokes each signal's update twice — once before
and once after the hard-coded 200-tick loop — so two consecutive such calls
invoke it four times, not twice: the signal's phase index, 0 at the start,
is 4 afterwards. -/
theorem c3_double_toggle_counterexample :
    ((Simulation.run motion0 true 200 (Simulation.run motion0 true 200
        c3sim)).traffic_signals.getD 0 ⟨0⟩).current_cycle_index = 4 ∧
      ((Simulation.run motion0 true 200 (Simulation.run motion0 true 200
        c3sim)).traffic_signals.getD 0 ⟨0⟩).current_cycle_index ≠ 2 := by
  have h1 := run_inert motion0 200 c3sim rfl rfl rfl rfl rfl
  rw [h1]
  rw [run_inert motion0 200 _ rfl rfl rfl rfl rfl]
  constructor
  · rfl
  · decide

/-- Claim C3 (amended): run with a truthy action first invokes update() once
on every registered signal and performs the hard-coded 200-tick loop
(regardless of n); if that loop ends with the simulation completed or the
display closed, the run stops there — one toggle in total — otherwise each
signal's update is invoked a second time before the n-tick loop, so each
signal receives exactly two updates.  Hence a truthy run toggles once or
twice, twice exactly when the 200-tick loop finishes uncompleted with the
display open; the ticks themselves never touch the signals. -/
theorem c3_run_signal_toggles (motion : Motion) (n : ℕ) (s : Simulation) :
    (Simulation.run motion true n s).traffic_signals =
      if (Simulation.loop motion 200 (Simulation.update_signals s)).completed ||
         (Simulation.loop motion 200 (Simulation.update_signals s)).gui_closed
      then s.traffic_signals.map TrafficSignal.update
      else (s.traffic_signals.map TrafficSignal.update).map TrafficSignal.update := by
  unfold Simulation.run
  rw [if_pos rfl]
  split
  · rw [loop_signals, update_signals_map]
  · rw [loop_signals, update_signals_map, loop_signals, update_signals_map]

/-- Claim C7: in the out-of-bounds loop of update(), for an active road i
whose lead vehicle has position at or beyond the road length and whose path
has a remaining segment: the vehicle's path pointer is advanced by one, a
copy with position reset to 0 is appended to the tail of the next road's
queue, that next road is marked newly active, the original is removed from
the head of road i's queue, no wait-time sample is appended, and
n_vehicles_on_map is unchanged by the hand-off. -/
theorem c7_handoff (t : ℚ) (acc : BAcc) (i : ℕ) (lead : Vehicle) (rest : List Vehicle)
    (hq : (acc.roads.getD i droad).vehicles = lead :: rest)
    (hx : lead.x ≥ (acc.roads.getD i droad).length)
    (hnext : lead.current_road_index + 1 < lead.path.length)
    (hnxtlt : lead.path.getD (lead.current_road_index + 1) 0 < acc.roads.length)
    (hni : lead.path.getD (lead.current_road_index + 1) 0 ≠ i) :
    ((boundaryStep t acc i).roads.getD
        (lead.path.getD (lead.current_road_index + 1) 0) droad).vehicles =
      (acc.roads.getD (lead.path.getD (lead.current_road_index + 1) 0) droad).vehicles
        ++ [{ lead with current_road_index := lead.current_road_index + 1, x := 0 }] ∧
    ((boundaryStep t acc i).roads.getD i droad).vehicles = rest ∧
    lead.path.getD (lead.current_road_index + 1) 0 ∈ (boundaryStep t acc i).new_ne ∧
    (boundaryStep t acc i).waits = acc.waits ∧
    (boundaryStep t acc i).nmap = acc.nmap := by
  rw [boundaryStep_handoff t acc i lead rest hq hx hnext]
  set nv : Vehicle :=
    { lead with current_road_index := lead.current_road_index + 1, x := 0 } with hnv
  set nxt : ℕ := lead.path.getD (lead.current_road_index + 1) 0 with hnxt
  set roads1 : List Road :=
    updAt acc.roads nxt (fun r => { r with vehicles := r.vehicles ++ [nv] }) with hroads1
  have hlen1 : roads1.length = acc.roads.length := by
    rw [hroads1, length_updAt]
  have hilen1 : i < acc.roads.length := by
    have h2 := @getD_vehicles_ne_imp_lt acc.roads i (by rw [hq]; simp)
    exact h2
  have hq1nxt : (roads1.getD nxt droad).vehicles =
      (acc.roads.getD nxt droad).vehicles ++ [nv] := by
    rw [hroads1, getD_updAt, if_pos ⟨rfl, hnxtlt⟩]
  have hq1i : (roads1.getD i droad).vehicles = (acc.roads.getD i droad).vehicles := by
    rw [hroads1, getD_updAt, if_neg (fun hc => hni (Eq.symm hc.1))]
  refine ⟨?_, ?_, ?_, rfl, rfl⟩
  · rw [getD_updAt, if_neg (fun hc => hni hc.1)]
    exact hq1nxt
  · rw [getD_updAt, if_pos ⟨rfl, by rw [hlen1]; exact hilen1⟩]
    show (roads1.getD i droad).vehicles.tail = rest
    rw [hq1i, hq, List.tail_cons]
  · exact mem_setAdd.mpr (Or.inr rfl)

/-- Witness for C7 at a two-road accumulator whose lead vehicle crosses from
road 0 onto road 1. -/
theorem c7_handoff_witness :
    ((boundaryStep 0 acc7 0).roads.getD
        (v7.path.getD (v7.current_road_index + 1) 0) droad).vehicles =
      (acc7.roads.getD (v7.path.getD (v7.current_road_index + 1) 0) droad).vehicles
        ++ [{ v7 with current_road_index := v7.current_road_index + 1, x := 0 }] ∧
    ((boundaryStep 0 acc7 0).roads.getD 0 droad).vehicles = [v7b] ∧
    v7.path.getD (v7.current_road_index + 1) 0 ∈ (boundaryStep 0 acc7 0).new_ne ∧
    (boundaryStep 0 acc7 0).waits = acc7.waits ∧
    (boundaryStep 0 acc7 0).nmap = acc7.nmap :=
  c7_handoff 0 acc7 0 v7 [v7b] rfl (by decide) (by decide) (by decide) (by decide)

/-- Claim C8: in the out-of-bounds loop of update(), for an active road i
whose lead vehicle has position at or beyond the road length and whose path
has no next segment: the vehicle is removed from the head of the queue,
n_vehicles_on_map decreases by exactly 1, and exactly one wait-time sample,
equal to its total waiting time at the current time — modelled from the spec
as (current time − spawn time) — is appended to the completed-wait-times
log. -/
theorem c8_exit (t : ℚ) (acc : BAcc) (i : ℕ) (lead : Vehicle) (rest : List Vehicle)
    (hq : (acc.roads.getD i droad).vehicles = lead :: rest)
    (hx : lead.x ≥ (acc.roads.getD i droad).length)
    (hnext : ¬ lead.current_road_index + 1 < lead.path.length) :
    ((boundaryStep t acc i).roads.getD i droad).vehicles = rest ∧
    (boundaryStep t acc i).nmap = acc.nmap - 1 ∧
    (boundaryStep t acc i).waits = acc.waits ++ [lead.get_total_waiting_time t] ∧
    lead.get_total_waiting_time t = t - lead.time_added := by
  rw [boundaryStep_exit t acc i lead rest hq hx hnext]
  have hilen : i < acc.roads.length :=
    @getD_vehicles_ne_imp_lt acc.roads i (by rw [hq]; simp)
  refine ⟨?_, rfl, rfl, rfl⟩
  rw [getD_updAt, if_pos ⟨rfl, hilen⟩]
  show (acc.roads.getD i droad).vehicles.tail = rest
  rw [hq, List.tail_cons]

/-- Witness for C8 at a one-road accumulator whose lead vehicle retires. -/
theorem c8_exit_witness :
    ((boundaryStep 7 acc8 0).roads.getD 0 droad).vehicles = [] ∧
    (boundaryStep 7 acc8 0).nmap = acc8.nmap - 1 ∧
    (boundaryStep 7 acc8 0).waits = acc8.waits ++ [v8.get_total_waiting_time 7] ∧
    v8.get_total_waiting_time 7 = 7 - v8.time_added :=
  c8_exit 7 acc8 0 v8 [] rfl (by decide) (by decide)

/-- Claim C1: evaluation exhibiting the scan bug.  On `c1sim` the only
vehicle pair within the collision radius is the pair of second vehicles
(`vA2`, `vB2`, distance 0), but the source's `chain.from_iterable` iterator
is exhausted after the first (lead) vehicle of each main road has been
scanned, so that pair is never compared: `detect_collisions` leaves
`collision_detected` false, while the spec's all-pairs scan (and the
method's own docstring, "checking all non-empty intersecting vehicle
paths") reports a collision. -/
theorem c1_collision_scan_bug :
    (Simulation.detect_collisions c1sim).collision_detected = false ∧
      detectCollisionsSpec c1sim = true := by
  have f11 : decide (sqDist vA1.position vB1.position < 4) = false :=
    decide_eq_false (by simp only [vA1, vB1, sqDist]; norm_num)
  have f12 : decide (sqDist vA1.position vB2.position < 4) = false :=
    decide_eq_false (by simp only [vA1, vB2, sqDist]; norm_num)
  have f21 : decide (sqDist vA2.position vB1.position < 4) = false :=
    decide_eq_false (by simp only [vA2, vB1, sqDist]; norm_num)
  have t22 : decide (sqDist vA2.position vB2.position < 4) = true :=
    decide_eq_true (by simp only [vA2, vB2, sqDist]; norm_num)
  have g11 : decide (sqDist vB1.position vA1.position < 4) = false :=
    decide_eq_false (by simp only [vB1, vA1, sqDist]; norm_num)
  have g12 : decide (sqDist vB1.position vA2.position < 4) = false :=
    decide_eq_false (by simp only [vB1, vA2, sqDist]; norm_num)
  constructor
  · have hhit : collisionHit c1sim = false := by
      show ((decide (sqDist vA1.position vB1.position < 4) ||
             (decide (sqDist vA1.position vB2.position < 4) || false)) ||
            ((decide (sqDist vB1.position vA1.position < 4) ||
             (decide (sqDist vB1.position vA2.position < 4) || false)) || false)) = false
      rw [f11, f12, g11, g12]
      rfl
    unfold Simulation.detect_collisions
    rw [hhit]
    rfl
  · show (((decide (sqDist vA1.position vB1.position < 4) ||
            (decide (sqDist vA1.position vB2.position < 4) || false)) ||
           ((decide (sqDist vA2.position vB1.position < 4) ||
            (decide (sqDist vA2.position vB2.position < 4) || false)) || false)) ||
          ((((decide (sqDist vB1.position vA1.position < 4) ||
            (decide (sqDist vB1.position vA2.position < 4) || false)) ||
           ((decide (sqDist vB2.position vA1.position < 4) ||
            (decide (sqDist vB2.position vA2.position < 4) || false)) || false))) ||
           false)) = true
    rw [f11, f12, f21, t22]
    rfl
